import Mathlib

/-! # The `no-module-state` lint rule

A shallow embedding of `lib/rules/no-module-state.js`.  The rule visits the
`Program` root of a parsed file, recognises an AMD module wrapped in a
`define(...)` call and reports the `var` declarators of the factory body that
none of its structural heuristics exempts.

JavaScript values that the rule reads are embedded as follows.

* AST nodes are the constructors of `Expr`, `PropertyNode`, `VariableDeclarator`,
  `Stmt` and `Pattern`; a property read such as `node.callee` is an accessor
  returning `Option`, `none` standing for `undefined` (or `null`).
* Reading a property of `undefined`/`null` throws: fallible code returns
  `Except TypeError`.
* The closure variables `moduleDependencies`, `moduleReturnedVar` and
  `frozenObjects` of `create` are the fields of `Context`, passed explicitly.
* `_.includes`, `_.filter`, `_.find`, `_.get`, `_.difference` (lodash) and
  `String.prototype.toUpperCase`/`toLowerCase` are modelled after their
  documented behaviour.
-/

namespace NoModuleState

/-! ## JavaScript runtime values -/

/-- The exception raised when `property` is read from `undefined` or `null`. -/
inductive TypeError where
  | cannotReadProperty (property : String)
deriving DecidableEq, Repr

deriving instance DecidableEq for Except

/-- JavaScript truthiness of a value that is a string or `undefined`:
only a non-empty string is truthy. -/
def truthy : Option String → Bool
  | some s => s != ""
  | none => false

/-- The upper-case forms of Unicode 14.0 that are a single character, as
runs `(first, last, step, target)`: a code point `c` with `first ≤ c ≤ last`
and `c - first` a multiple of `step` has the upper-case form
`target + (c - first)`. -/
def upperCaseRuns : List (Nat × Nat × Nat × Nat) :=
  [(97, 122, 1, 65), (181, 181, 1, 924), (224, 246, 1, 192), (248, 254, 1, 216), (255, 255, 1, 376),
   (257, 303, 2, 256), (305, 305, 1, 73), (307, 311, 2, 306), (314, 328, 2, 313), (331, 375, 2, 330),
   (378, 382, 2, 377), (383, 383, 1, 83), (384, 384, 1, 579), (387, 389, 2, 386), (392, 392, 1, 391),
   (396, 396, 1, 395), (402, 402, 1, 401), (405, 405, 1, 502), (409, 409, 1, 408), (410, 410, 1, 573),
   (414, 414, 1, 544), (417, 421, 2, 416), (424, 424, 1, 423), (429, 429, 1, 428), (432, 432, 1, 431),
   (436, 438, 2, 435), (441, 441, 1, 440), (445, 445, 1, 444), (447, 447, 1, 503), (453, 453, 1, 452),
   (454, 454, 1, 452), (456, 456, 1, 455), (457, 457, 1, 455), (459, 459, 1, 458), (460, 460, 1, 458),
   (462, 476, 2, 461), (477, 477, 1, 398), (479, 495, 2, 478), (498, 498, 1, 497), (499, 499, 1, 497),
   (501, 501, 1, 500), (505, 543, 2, 504), (547, 563, 2, 546), (572, 572, 1, 571), (575, 576, 1, 11390),
   (578, 578, 1, 577), (583, 591, 2, 582), (592, 592, 1, 11375), (593, 593, 1, 11373), (594, 594, 1, 11376),
   (595, 595, 1, 385), (596, 596, 1, 390), (598, 599, 1, 393), (601, 601, 1, 399), (603, 603, 1, 400),
   (604, 604, 1, 42923), (608, 608, 1, 403), (609, 609, 1, 42924), (611, 611, 1, 404), (613, 613, 1, 42893),
   (614, 614, 1, 42922), (616, 616, 1, 407), (617, 617, 1, 406), (618, 618, 1, 42926), (619, 619, 1, 11362),
   (620, 620, 1, 42925), (623, 623, 1, 412), (625, 625, 1, 11374), (626, 626, 1, 413), (629, 629, 1, 415),
   (637, 637, 1, 11364), (640, 640, 1, 422), (642, 642, 1, 42949), (643, 643, 1, 425), (647, 647, 1, 42929),
   (648, 648, 1, 430), (649, 649, 1, 580), (650, 651, 1, 433), (652, 652, 1, 581), (658, 658, 1, 439),
   (669, 669, 1, 42930), (670, 670, 1, 42928), (837, 837, 1, 921), (881, 883, 2, 880), (887, 887, 1, 886),
   (891, 893, 1, 1021), (940, 940, 1, 902), (941, 943, 1, 904), (945, 961, 1, 913), (962, 962, 1, 931),
   (963, 971, 1, 931), (972, 972, 1, 908), (973, 974, 1, 910), (976, 976, 1, 914), (977, 977, 1, 920),
   (981, 981, 1, 934), (982, 982, 1, 928), (983, 983, 1, 975), (985, 1007, 2, 984), (1008, 1008, 1, 922),
   (1009, 1009, 1, 929), (1010, 1010, 1, 1017), (1011, 1011, 1, 895), (1013, 1013, 1, 917), (1016, 1016, 1, 1015),
   (1019, 1019, 1, 1018), (1072, 1103, 1, 1040), (1104, 1119, 1, 1024), (1121, 1153, 2, 1120), (1163, 1215, 2, 1162),
   (1218, 1230, 2, 1217), (1231, 1231, 1, 1216), (1233, 1327, 2, 1232), (1377, 1414, 1, 1329), (4304, 4346, 1, 7312),
   (4349, 4351, 1, 7357), (5112, 5117, 1, 5104), (7296, 7296, 1, 1042), (7297, 7297, 1, 1044), (7298, 7298, 1, 1054),
   (7299, 7300, 1, 1057), (7301, 7301, 1, 1058), (7302, 7302, 1, 1066), (7303, 7303, 1, 1122), (7304, 7304, 1, 42570),
   (7545, 7545, 1, 42877), (7549, 7549, 1, 11363), (7566, 7566, 1, 42950), (7681, 7829, 2, 7680), (7835, 7835, 1, 7776),
   (7841, 7935, 2, 7840), (7936, 7943, 1, 7944), (7952, 7957, 1, 7960), (7968, 7975, 1, 7976), (7984, 7991, 1, 7992),
   (8000, 8005, 1, 8008), (8017, 8023, 2, 8025), (8032, 8039, 1, 8040), (8048, 8049, 1, 8122), (8050, 8053, 1, 8136),
   (8054, 8055, 1, 8154), (8056, 8057, 1, 8184), (8058, 8059, 1, 8170), (8060, 8061, 1, 8186), (8112, 8113, 1, 8120),
   (8126, 8126, 1, 921), (8144, 8145, 1, 8152), (8160, 8161, 1, 8168), (8165, 8165, 1, 8172), (8526, 8526, 1, 8498),
   (8560, 8575, 1, 8544), (8580, 8580, 1, 8579), (9424, 9449, 1, 9398), (11312, 11359, 1, 11264), (11361, 11361, 1, 11360),
   (11365, 11365, 1, 570), (11366, 11366, 1, 574), (11368, 11372, 2, 11367), (11379, 11379, 1, 11378), (11382, 11382, 1, 11381),
   (11393, 11491, 2, 11392), (11500, 11502, 2, 11499), (11507, 11507, 1, 11506), (11520, 11557, 1, 4256), (11559, 11559, 1, 4295),
   (11565, 11565, 1, 4301), (42561, 42605, 2, 42560), (42625, 42651, 2, 42624), (42787, 42799, 2, 42786), (42803, 42863, 2, 42802),
   (42874, 42876, 2, 42873), (42879, 42887, 2, 42878), (42892, 42892, 1, 42891), (42897, 42899, 2, 42896), (42900, 42900, 1, 42948),
   (42903, 42921, 2, 42902), (42933, 42947, 2, 42932), (42952, 42954, 2, 42951), (42961, 42961, 1, 42960), (42967, 42969, 2, 42966),
   (42998, 42998, 1, 42997), (43859, 43859, 1, 42931), (43888, 43967, 1, 5024), (65345, 65370, 1, 65313), (66600, 66639, 1, 66560),
   (66776, 66811, 1, 66736), (66967, 66977, 1, 66928), (66979, 66993, 1, 66940), (66995, 67001, 1, 66956), (67003, 67004, 1, 66964),
   (68800, 68850, 1, 68736), (71872, 71903, 1, 71840), (93792, 93823, 1, 93760), (125218, 125251, 1, 125184)]

/-- The upper-case forms of Unicode 14.0 that are several characters long
(the unconditional entries of SpecialCasing), as `(code point, form)`. -/
def upperCaseSpecial : List (Nat × List Nat) :=
  [(223, [83, 83]), (329, [700, 78]), (496, [74, 780]), (912, [921, 776, 769]),
   (944, [933, 776, 769]), (1415, [1333, 1362]), (7830, [72, 817]), (7831, [84, 776]),
   (7832, [87, 778]), (7833, [89, 778]), (7834, [65, 702]), (8016, [933, 787]),
   (8018, [933, 787, 768]), (8020, [933, 787, 769]), (8022, [933, 787, 834]), (8064, [7944, 921]),
   (8065, [7945, 921]), (8066, [7946, 921]), (8067, [7947, 921]), (8068, [7948, 921]),
   (8069, [7949, 921]), (8070, [7950, 921]), (8071, [7951, 921]), (8072, [7944, 921]),
   (8073, [7945, 921]), (8074, [7946, 921]), (8075, [7947, 921]), (8076, [7948, 921]),
   (8077, [7949, 921]), (8078, [7950, 921]), (8079, [7951, 921]), (8080, [7976, 921]),
   (8081, [7977, 921]), (8082, [7978, 921]), (8083, [7979, 921]), (8084, [7980, 921]),
   (8085, [7981, 921]), (8086, [7982, 921]), (8087, [7983, 921]), (8088, [7976, 921]),
   (8089, [7977, 921]), (8090, [7978, 921]), (8091, [7979, 921]), (8092, [7980, 921]),
   (8093, [7981, 921]), (8094, [7982, 921]), (8095, [7983, 921]), (8096, [8040, 921]),
   (8097, [8041, 921]), (8098, [8042, 921]), (8099, [8043, 921]), (8100, [8044, 921]),
   (8101, [8045, 921]), (8102, [8046, 921]), (8103, [8047, 921]), (8104, [8040, 921]),
   (8105, [8041, 921]), (8106, [8042, 921]), (8107, [8043, 921]), (8108, [8044, 921]),
   (8109, [8045, 921]), (8110, [8046, 921]), (8111, [8047, 921]), (8114, [8122, 921]),
   (8115, [913, 921]), (8116, [902, 921]), (8118, [913, 834]), (8119, [913, 834, 921]),
   (8124, [913, 921]), (8130, [8138, 921]), (8131, [919, 921]), (8132, [905, 921]),
   (8134, [919, 834]), (8135, [919, 834, 921]), (8140, [919, 921]), (8146, [921, 776, 768]),
   (8147, [921, 776, 769]), (8150, [921, 834]), (8151, [921, 776, 834]), (8162, [933, 776, 768]),
   (8163, [933, 776, 769]), (8164, [929, 787]), (8166, [933, 834]), (8167, [933, 776, 834]),
   (8178, [8186, 921]), (8179, [937, 921]), (8180, [911, 921]), (8182, [937, 834]),
   (8183, [937, 834, 921]), (8188, [937, 921]), (64256, [70, 70]), (64257, [70, 73]),
   (64258, [70, 76]), (64259, [70, 70, 73]), (64260, [70, 70, 76]), (64261, [83, 84]),
   (64262, [83, 84]), (64275, [1348, 1350]), (64276, [1348, 1333]), (64277, [1348, 1339]),
   (64278, [1358, 1350]), (64279, [1348, 1341])]

/-- The upper-case form of the code point `c`: its special form, else the
form a run gives it, else `c` itself. -/
def upperCaseOf (c : Nat) : List Nat :=
  match upperCaseSpecial.find? (fun e => e.1 == c) with
  | some e => e.2
  | none =>
    match upperCaseRuns.find? (fun r => r.1 ≤ c && c ≤ r.2.1 && (c - r.1) % r.2.2.1 == 0) with
    | some r => [r.2.2.2 + (c - r.1)]
    | none => [c]

/-- The upper-case form of a character, as characters. -/
def upperCaseChar (c : Char) : List Char := (upperCaseOf c.toNat).map Char.ofNat

/-- `String.prototype.toUpperCase`: the Unicode default case conversion, each
character being replaced by its upper-case form. -/
def toUpperCase (s : String) : String := ⟨(s.data.map upperCaseChar).flatten⟩

/-- `String.prototype.toLowerCase`, on the ASCII range.  No character outside
`A`–`Z` lower-cases to a letter of `react`, so the comparison made by
`isReactCreate` is exact for every name. -/
def toLowerCase (s : String) : String := ⟨s.data.map Char.toLower⟩

/-- `haystack.indexOf(needle) > -1`: `needle` occurs in `haystack` as a
contiguous run of characters. -/
def stringIndexOfFound (haystack needle : String) : Bool :=
  haystack.data.tails.any (fun t => needle.data.isPrefixOf t)

/-- `String(value)` for a value that is a string or `undefined`: the coercion
`String.prototype.indexOf` applies to its argument. -/
def toStringJS : Option String → String
  | some s => s
  | none => "undefined"

/-- `_.includes(collection, value)` for an array `collection` of strings and
`undefined`s: membership by `SameValueZero`, under which `undefined` equals
`undefined`. -/
def includesArray (collection : List (Option String)) (value : Option String) : Bool :=
  collection.contains value

/-- `_.includes(collection, value)` for a `collection` that is a string or
`undefined`/`null`.  On a string lodash answers
`collection.indexOf(value) > -1`, a substring test; on `undefined`/`null` it
answers `false`. -/
def includesString (collection : Option String) (value : Option String) : Bool :=
  match collection with
  | none => false
  | some s => stringIndexOfFound s (toStringJS value)

/-! ## The syntax tree (ESTree) -/

/-- The value of a `Literal` node. -/
inductive LiteralValue where
  | string (value : String)
  | number (raw : String)
  | boolean (value : Bool)
  | null
  | regex (pattern : String) (flags : String)
deriving DecidableEq, Repr

/-- Binding patterns other than a plain identifier; none of them has a `name`. -/
inductive PatternKind where
  | ObjectPattern
  | ArrayPattern
  | RestElement
  | AssignmentPattern
deriving DecidableEq, Repr

/-- A binding position: a function parameter or the `id` of a declarator.
The rule reads only `name` from it. -/
inductive Pattern where
  | Identifier (name : String)
  | Other (kind : PatternKind)
deriving DecidableEq, Repr

/-- Node kinds in expression position whose fields the rule never reads
(it reads `argument`, `object`, `elements`, `properties` and `name` only under
a `type` test these kinds fail, and none of them has a `callee`). -/
inductive ExprKind where
  | ThisExpression
  | Super
  | ArrowFunctionExpression
  | ConditionalExpression
  | LogicalExpression
  | AssignmentExpression
  | UpdateExpression
  | SequenceExpression
  | TemplateLiteral
  | TaggedTemplateExpression
  | ClassExpression
  | YieldExpression
  | AwaitExpression
  | SpreadElement
deriving DecidableEq, Repr

/-- Statement kinds whose fields the rule never reads. -/
inductive StmtKind where
  | EmptyStatement
  | FunctionDeclaration
  | IfStatement
  | ForStatement
  | WhileStatement
  | TryStatement
  | ThrowStatement
  | SwitchStatement
deriving DecidableEq, Repr

mutual
/-- Expression nodes. -/
inductive Expr where
  | Identifier (name : String)
  | Literal (value : LiteralValue)
  | UnaryExpression (operator : String) (argument : Expr)
  | BinaryExpression (operator : String) (left : Expr) (right : Expr)
  | FunctionExpression (params : List Pattern) (body : List Stmt)
  | ArrayExpression (elements : List (Option Expr))
  | ObjectExpression (properties : List PropertyNode)
  | MemberExpression (object : Expr) (property : Expr)
  | CallExpression (callee : Expr) (arguments : List Expr)
  | NewExpression (callee : Expr) (arguments : List Expr)
  | Other (kind : ExprKind)
/-- An element of `ObjectExpression.properties`. -/
inductive PropertyNode where
  | Property (key : Expr) (value : Expr)
  | SpreadElement (argument : Expr)
/-- A declarator `id = init` of a variable declaration; `init` is `null`
when the declarator has no initializer. -/
inductive VariableDeclarator where
  | mk (id : Pattern) (init : Option Expr)
/-- Statement nodes.  The body of a function expression, a `BlockStatement`,
is represented by its list of statements. -/
inductive Stmt where
  | ExpressionStatement (expression : Expr)
  | VariableDeclaration (kind : String) (declarations : List VariableDeclarator)
  | ReturnStatement (argument : Option Expr)
  | BlockStatement (body : List Stmt)
  | Other (kind : StmtKind)
end

/-- The root node handed to the `Program` visitor. -/
structure ProgramNode where
  body : List Stmt

/-- A node reference as the classifier predicates receive it: a declarator
(from `filterAllowed`), an expression (a property value, from
`isConstObject`) or `undefined` (the `value` of a spread property). -/
inductive Node where
  | declarator (d : VariableDeclarator)
  | expression (e : Expr)
  | undefined

/-! ### Property reads -/

/-- The `name` of a binding pattern. -/
def Pattern.name : Pattern → Option String
  | .Identifier name => some name
  | .Other _ => none

/-- The `type` discriminant of the remaining expression kinds. -/
def ExprKind.type : ExprKind → String
  | .ThisExpression => "ThisExpression"
  | .Super => "Super"
  | .ArrowFunctionExpression => "ArrowFunctionExpression"
  | .ConditionalExpression => "ConditionalExpression"
  | .LogicalExpression => "LogicalExpression"
  | .AssignmentExpression => "AssignmentExpression"
  | .UpdateExpression => "UpdateExpression"
  | .SequenceExpression => "SequenceExpression"
  | .TemplateLiteral => "TemplateLiteral"
  | .TaggedTemplateExpression => "TaggedTemplateExpression"
  | .ClassExpression => "ClassExpression"
  | .YieldExpression => "YieldExpression"
  | .AwaitExpression => "AwaitExpression"
  | .SpreadElement => "SpreadElement"

/-- The `type` discriminant of the remaining statement kinds. -/
def StmtKind.type : StmtKind → String
  | .EmptyStatement => "EmptyStatement"
  | .FunctionDeclaration => "FunctionDeclaration"
  | .IfStatement => "IfStatement"
  | .ForStatement => "ForStatement"
  | .WhileStatement => "WhileStatement"
  | .TryStatement => "TryStatement"
  | .ThrowStatement => "ThrowStatement"
  | .SwitchStatement => "SwitchStatement"

/-- The read `node.type` on an expression. -/
def Expr.type : Expr → String
  | .Identifier _ => "Identifier"
  | .Literal _ => "Literal"
  | .UnaryExpression _ _ => "UnaryExpression"
  | .BinaryExpression _ _ _ => "BinaryExpression"
  | .FunctionExpression _ _ => "FunctionExpression"
  | .ArrayExpression _ => "ArrayExpression"
  | .ObjectExpression _ => "ObjectExpression"
  | .MemberExpression _ _ => "MemberExpression"
  | .CallExpression _ _ => "CallExpression"
  | .NewExpression _ _ => "NewExpression"
  | .Other kind => kind.type

/-- The read `node.name` on an expression. -/
def Expr.name : Expr → Option String
  | .Identifier name => some name
  | _ => none

/-- The read `node.object` on an expression. -/
def Expr.object : Expr → Option Expr
  | .MemberExpression object _ => some object
  | _ => none

/-- The read `node.property` on an expression. -/
def Expr.property : Expr → Option Expr
  | .MemberExpression _ property => some property
  | _ => none

/-- The read `node.callee` on an expression. -/
def Expr.callee : Expr → Option Expr
  | .CallExpression callee _ => some callee
  | .NewExpression callee _ => some callee
  | _ => none

/-- The read `node.arguments` on an expression. -/
def Expr.arguments : Expr → Option (List Expr)
  | .CallExpression _ arguments => some arguments
  | .NewExpression _ arguments => some arguments
  | _ => none

/-- The read `node.argument` on an expression, for the kind whose operand the
rule inspects. -/
def Expr.argument : Expr → Option Expr
  | .UnaryExpression _ argument => some argument
  | _ => none

/-- The read `node.elements` on an expression. -/
def Expr.elements : Expr → Option (List (Option Expr))
  | .ArrayExpression elements => some elements
  | _ => none

/-- The read `node.properties` on an expression. -/
def Expr.properties : Expr → Option (List PropertyNode)
  | .ObjectExpression properties => some properties
  | _ => none

/-- The read `node.params` on an expression. -/
def Expr.params : Expr → Option (List Pattern)
  | .FunctionExpression params _ => some params
  | _ => none

/-- The read `node.body` on an expression: the block of a function
expression. -/
def Expr.body : Expr → Option (List Stmt)
  | .FunctionExpression _ body => some body
  | _ => none

/-- The read `property.value`, as `_.map` over `properties` makes it: a spread
element has no `value`. -/
def PropertyNode.value : PropertyNode → Node
  | .Property _ value => .expression value
  | .SpreadElement _ => .undefined

/-- The read `node.id` on a declarator. -/
def VariableDeclarator.id : VariableDeclarator → Pattern
  | .mk id _ => id

/-- The read `node.init` on a declarator. -/
def VariableDeclarator.init : VariableDeclarator → Option Expr
  | .mk _ init => init

/-- The read `node.type` on a statement. -/
def Stmt.type : Stmt → String
  | .ExpressionStatement _ => "ExpressionStatement"
  | .VariableDeclaration _ _ => "VariableDeclaration"
  | .ReturnStatement _ => "ReturnStatement"
  | .BlockStatement _ => "BlockStatement"
  | .Other kind => kind.type

/-- The read `node.expression` on a statement. -/
def Stmt.expression : Stmt → Option Expr
  | .ExpressionStatement expression => some expression
  | _ => none

/-- The read `node.kind` on a statement. -/
def Stmt.kind : Stmt → Option String
  | .VariableDeclaration kind _ => some kind
  | _ => none

/-- The read `node.declarations` on a statement. -/
def Stmt.declarations : Stmt → Option (List VariableDeclarator)
  | .VariableDeclaration _ declarations => some declarations
  | _ => none

/-- The read `node.argument` on a statement. -/
def Stmt.argument : Stmt → Option Expr
  | .ReturnStatement argument => argument
  | _ => none

/-- A property read `x.property` through a reference `x` that may be
`undefined`: it throws when it is. -/
def read {α β : Type} (property : String) (x : Option α) (field : α → β) : Except TypeError β :=
  match x with
  | none => .error (.cannotReadProperty property)
  | some a => .ok (field a)

/-- Short-circuit `a || b` of two computations yielding truth values. -/
def jsOr (a b : Except TypeError Bool) : Except TypeError Bool :=
  match a with
  | .error e => .error e
  | .ok true => .ok true
  | .ok false => b

/-- Short-circuit `a && b` of two computations yielding truth values. -/
def jsAnd (a b : Except TypeError Bool) : Except TypeError Bool :=
  match a with
  | .error e => .error e
  | .ok false => .ok false
  | .ok true => b

/-! ## The rule -/

/-- The closure variables of `create`, assigned by the `Program` handler and
read by the classifier predicates.  `moduleDependencies` and `frozenObjects`
hold `undefined` where the source maps a missing `name`. -/
structure Context where
  moduleDependencies : List (Option String)
  moduleReturnedVar : Option String
  frozenObjects : List (Option String)
deriving DecidableEq, Repr

/-- The closure variables before the first `Program` call.  All three are
`undefined` then, on which `_.includes` answers `false` as on an empty array. -/
def Context.initial : Context := ⟨[], none, []⟩

/-- What `context.report` receives: the message and the (absent) fix. -/
structure Diagnostic where
  message : String
  fix : Option String
deriving DecidableEq, Repr

/-- The function `report`: the message interpolates `node.id.name`, which is
`undefined` when the `id` is not a plain identifier. -/
def report (node : VariableDeclarator) : Diagnostic :=
  ⟨toStringJS node.id.name ++ " defined in module scope.", none⟩

/-- The table `defineTypes` of `isAmdModule`, as the `type` each entry checks. -/
def defineTypes : List String := ["FunctionExpression", "ArrayExpression", "Literal"]

/-- The loop `.every((arg, index) => defineTypes[index].check(arg))` over the
reversed arguments, the table being consumed in step with the index. -/
def everyDefineType : List Expr → List String → Except TypeError Bool
  | [], _ => .ok true
  | _ :: _, [] => .error (.cannotReadProperty "check")
  | arg :: args, type :: types =>
    if arg.type == type then everyDefineType args types else .ok false

/-- The conjunction `moduleIsWrappedWithDefine` of `isAmdModule`. -/
def moduleIsWrappedWithDefine (body : List Stmt) : Except TypeError Bool :=
  jsAnd (.ok (body.length == 1)) <|
  jsAnd (read "type" body[0]? (fun s => s.type == "ExpressionStatement")) <|
  (read "expression" body[0]? Stmt.expression).bind fun expression =>
  (read "callee" expression Expr.callee).bind fun callee =>
  match callee with
  | none => .ok false
  | some c => .ok (c.name == some "define")

/-- The function `isAmdModule`. -/
def isAmdModule (node : ProgramNode) : Except TypeError Bool :=
  let body := node.body
  (moduleIsWrappedWithDefine body).bind fun wrapped =>
  if !wrapped then .ok false else
  (read "expression" body[0]? Stmt.expression).bind fun defineCall =>
  (read "type" defineCall Expr.type).bind fun type =>
  if type != "CallExpression" then .ok false else
  (read "arguments" defineCall Expr.arguments).bind fun defineArgs =>
  (read "length" defineArgs List.length).bind fun length =>
  if length == 0 || length > 3 then .ok false else
  everyDefineType (defineArgs.getD []).reverse defineTypes

/-- The function `getAllGlobalVars`, applied to the block of the factory. -/
def getAllGlobalVars (node : Option (List Stmt)) : Except TypeError (List VariableDeclarator) :=
  (read "body" node id).bind fun body =>
  .ok ((((body.filter (fun s => s.type == "VariableDeclaration")).filter
    (fun s => s.kind == some "var")).map (fun s => s.declarations.getD [])).flatten)

/-- The function `getProp`, at `propName = type`.  The `type` of an
initializer is a non-empty string, hence truthy; a declarator without
initializer answers its own `type`. -/
def getPropType : Node → Except TypeError (Option String)
  | .undefined => .error (.cannotReadProperty "init")
  | .expression e => .ok (some e.type)
  | .declarator (.mk _ none) => .ok (some "VariableDeclarator")
  | .declarator (.mk _ (some init)) => .ok (some init.type)

/-- The function `getProp`, at `propName = name`.  A declarator has no `name`
of its own. -/
def getPropName : Node → Except TypeError (Option String)
  | .undefined => .error (.cannotReadProperty "init")
  | .expression e => .ok e.name
  | .declarator (.mk _ none) => .ok none
  | .declarator (.mk _ (some init)) => .ok (if truthy init.name then init.name else none)

/-- The function `getProp`, at `propName = object`. -/
def getPropObject : Node → Except TypeError (Option Expr)
  | .undefined => .error (.cannotReadProperty "init")
  | .expression e => .ok e.object
  | .declarator (.mk _ none) => .ok none
  | .declarator (.mk _ (some init)) => .ok init.object

/-- The function `getProp`, at `propName = properties`. -/
def getPropProperties : Node → Except TypeError (Option (List PropertyNode))
  | .undefined => .error (.cannotReadProperty "init")
  | .expression e => .ok e.properties
  | .declarator (.mk _ none) => .ok none
  | .declarator (.mk _ (some init)) => .ok init.properties

/-- The function `getObjectName` on a defined node: `node.name` when truthy,
else the recursive call on `node.object`, which throws on its first property
read when `node.object` is `undefined`. -/
def getObjectNameOf : Expr → Except TypeError String
  | .Identifier name => if name != "" then .ok name else .error (.cannotReadProperty "name")
  | .MemberExpression object _ => getObjectNameOf object
  | _ => .error (.cannotReadProperty "name")

/-- The function `getObjectName`. -/
def getObjectName : Option Expr → Except TypeError String
  | none => .error (.cannotReadProperty "name")
  | some node => getObjectNameOf node

/-- The function `isUpperCase`. -/
def isUpperCase (node : VariableDeclarator) : Bool :=
  let name := node.id.name
  truthy name && name == name.map toUpperCase

/-- The function `isDep`. -/
def isDep (ctx : Context) (node : Node) : Except TypeError Bool :=
  (getPropType node).bind fun type =>
  (getPropName node).bind fun nodeName =>
  (getPropObject node).bind fun object =>
  let name : Except TypeError (Option String) :=
    if type == some "Identifier" && truthy nodeName then .ok nodeName
    else if type == some "MemberExpression" then (getObjectName object).map some
    else .ok none
  name.bind fun name => .ok (includesArray ctx.moduleDependencies name)

/-- The value `argType` of `isLiteral`:
`node.init && node.init.argument && node.init.argument.type ||
node.argument && node.argument.type`. -/
def argTypeOf : Node → Option String
  | .undefined => none
  | .expression e => e.argument.map Expr.type
  | .declarator (.mk _ none) => none
  | .declarator (.mk _ (some init)) => init.argument.map Expr.type

/-- The function `isLiteral`. -/
def isLiteral (node : Node) : Except TypeError Bool :=
  (getPropType node).bind fun type =>
  let argType := argTypeOf node
  .ok (type == some "Literal" || (type == some "UnaryExpression" && argType == some "Literal"))

/-- The function `isBinaryExpression`. -/
def isBinaryExpression (node : Node) : Except TypeError Bool :=
  (getPropType node).bind fun type => .ok (type == some "BinaryExpression")

/-- The function `isFunction`. -/
def isFunction (node : Node) : Except TypeError Bool :=
  (getPropType node).bind fun type => .ok (type == some "FunctionExpression")

/-- The function `isArrayWithValues`. -/
def isArrayWithValues (node : VariableDeclarator) : Except TypeError Bool :=
  (getPropType (.declarator node)).bind fun type =>
  if type != some "ArrayExpression" then .ok false else
  (read "elements" node.init Expr.elements).bind fun elements =>
  match elements with
  | none => .ok false
  | some es => .ok (es.length != 0)

mutual
/-- The function `isConstObject` on an expression node (a property value):
`getProp` reads the node itself, an expression having no `init`. -/
def isConstObjectExpr (ctx : Context) : Expr → Except TypeError Bool
  | .ObjectExpression properties =>
    if properties.isEmpty then .ok false else everyValueConst ctx properties
  | _ => .ok false
/-- The loop `_.every` of `isConstObject` over the mapped `value`s. -/
def everyValueConst (ctx : Context) : List PropertyNode → Except TypeError Bool
  | [] => .ok true
  | property :: rest =>
    match valueConst ctx property with
    | .error e => .error e
    | .ok false => .ok false
    | .ok true => everyValueConst ctx rest
/-- The predicate `_.every` applies to the `value` of one property:
`isLiteral(value) || isFunction(value) || isDep(value) || isConstObject(value)`. -/
def valueConst (ctx : Context) : PropertyNode → Except TypeError Bool
  | .Property key value =>
    jsOr (isLiteral (PropertyNode.value (.Property key value))) <|
    jsOr (isFunction (PropertyNode.value (.Property key value))) <|
    jsOr (isDep ctx (PropertyNode.value (.Property key value))) <|
    isConstObjectExpr ctx value
  | .SpreadElement argument =>
    jsOr (isLiteral (PropertyNode.value (.SpreadElement argument))) <|
    jsOr (isFunction (PropertyNode.value (.SpreadElement argument))) <|
    jsOr (isDep ctx (PropertyNode.value (.SpreadElement argument))) <|
    .error (.cannotReadProperty "init")
end

/-- The function `isConstObject`.  `_.isEmpty` answers true on `undefined`;
the recursive calls, made on property values, are `isConstObjectExpr`. -/
def isConstObject (ctx : Context) (node : Node) : Except TypeError Bool :=
  (getPropType node).bind fun type =>
  (getPropProperties node).bind fun properties =>
  if type != some "ObjectExpression" then .ok false else
  if (properties.getD []).isEmpty then .ok false else
  everyValueConst ctx (properties.getD [])

/-- The name `isReturnedObject` and `isFrozen` look up: the initializer's own
name when it is an identifier, the declarator's name when the initializer has
one of the `types` listed, `undefined` otherwise. -/
def associatedName (types : List String) (node : VariableDeclarator) : Except TypeError (Option String) :=
  (read "type" node.init Expr.type).bind fun type =>
  (read "name" node.init Expr.name).bind fun initName =>
  if type == "Identifier" && truthy initName then .ok initName
  else if types.contains type then .ok node.id.name
  else .ok none

/-- The function `isReturnedObject`. -/
def isReturnedObject (ctx : Context) (node : VariableDeclarator) : Except TypeError Bool :=
  (associatedName ["ObjectExpression"] node).bind fun name =>
  .ok (includesString ctx.moduleReturnedVar name)

/-- The function `isFrozen`. -/
def isFrozen (ctx : Context) (node : VariableDeclarator) : Except TypeError Bool :=
  (associatedName ["ObjectExpression", "ArrayExpression", "CallExpression"] node).bind fun name =>
  .ok (includesArray ctx.frozenObjects name)

/-- The function `isRegex`. -/
def isRegex (node : VariableDeclarator) : Except TypeError Bool :=
  match node.init with
  | none => .ok false
  | some init =>
    if init.type != "NewExpression" then .ok false else
    (read "name" init.callee Expr.name).bind fun name => .ok (name == some "RegExp")

/-- The function `isReactCreate`.  Its guard `type === CallExpression ||
node.init` passes for every declarator that has an initializer. -/
def isReactCreate (node : VariableDeclarator) : Except TypeError Bool :=
  (getPropType (.declarator node)).bind fun type =>
  if !(type == some "CallExpression" || node.init.isSome) then .ok false else
  (read "callee" node.init Expr.callee).bind fun callee =>
  match callee with
  | none => .ok false
  | some callee =>
    match callee.object with
    | none => .ok false
    | some object =>
      if !(truthy object.name) then .ok false else
      if object.name.map toLowerCase != some "react" then .ok false else
      match callee.property with
      | none => .ok false
      | some property =>
        .ok (property.name == some "createClass" || property.name == some "createFactory")

/-- The function `isSantaType`. -/
def isSantaType (node : VariableDeclarator) : Except TypeError Bool :=
  (getPropType (.declarator node)).bind fun type =>
  if !(type == some "CallExpression" || node.init.isSome) then .ok false else
  (read "callee" node.init Expr.callee).bind fun callee =>
  match callee with
  | none => .ok false
  | some callee => .ok (callee.name == some "applyFetch")

/-- The predicate `filterAllowed` passes to `_.filter`. -/
def isAllowed (ctx : Context) (node : VariableDeclarator) : Except TypeError Bool :=
  jsAnd (.ok node.init.isSome) <|
  jsOr (isLiteral (.declarator node)) <|
  jsOr (isFunction (.declarator node)) <|
  jsOr (isArrayWithValues node) <|
  jsOr (.ok (isUpperCase node)) <|
  jsOr (isReturnedObject ctx node) <|
  jsOr (isFrozen ctx node) <|
  jsOr (isReactCreate node) <|
  jsOr (isSantaType node) <|
  jsOr (isDep ctx (.declarator node)) <|
  jsOr (isRegex node) <|
  jsOr (isConstObject ctx (.declarator node)) <|
  isBinaryExpression (.declarator node)

/-- The function `filterAllowed`.  `_.filter` evaluates the predicate on the
declarators in order, the first exception aborting the call; `_.difference`
then removes the selected nodes by reference, and the nodes of a tree being
pairwise distinct objects, what remains is the declarators the predicate
rejected, in their order. -/
def filterAllowed (ctx : Context) : List VariableDeclarator → Except TypeError (List VariableDeclarator)
  | [] => .ok []
  | node :: rest =>
    match isAllowed ctx node with
    | .error e => .error e
    | .ok allowed =>
      match filterAllowed ctx rest with
      | .error e => .error e
      | .ok kept => .ok (if allowed then kept else node :: kept)

/-- The expression `node.body[0].expression` the extractors start from. -/
def defineCallOf (node : ProgramNode) : Except TypeError (Option Expr) :=
  read "expression" node.body[0]? Stmt.expression

/-- The chain `_(defineCall.arguments).filter(namedTypes.FunctionExpression.check)`;
lodash treats an `undefined` collection as empty. -/
def functionArguments (node : ProgramNode) : Except TypeError (List Expr) :=
  (defineCallOf node).bind fun defineCall =>
  (read "arguments" defineCall Expr.arguments).bind fun arguments =>
  .ok ((arguments.getD []).filter (fun arg => arg.type == "FunctionExpression"))

/-- The function `getModuleDefinition`. -/
def getModuleDefinition (node : ProgramNode) : Except TypeError (Option (List Stmt)) :=
  (functionArguments node).bind fun functions =>
  .ok ((functions.map Expr.body).head?.join)

/-- The function `getModuleDependencies`. -/
def getModuleDependencies (node : ProgramNode) : Except TypeError (List (Option String)) :=
  (functionArguments node).bind fun functions =>
  .ok (((functions.map (fun f => f.params.getD [])).flatten).map Pattern.name)

/-- The statements `_.find(defineCall.arguments, namedTypes.FunctionExpression.check).body.body`. -/
def definitionBodyOf (node : ProgramNode) : Except TypeError (List Stmt) :=
  (defineCallOf node).bind fun defineCall =>
  (read "arguments" defineCall Expr.arguments).bind fun arguments =>
  (read "body" ((arguments.getD []).find? (fun arg => arg.type == "FunctionExpression")) Expr.body).bind
    fun block =>
  read "body" block id

/-- The function `getModuleReturnStatement`. -/
def getModuleReturnStatement (node : ProgramNode) : Except TypeError (Option String) :=
  (definitionBodyOf node).bind fun definitionBody =>
  match definitionBody.find? (fun s => s.type == "ReturnStatement") with
  | none => .ok none
  | some returnNode =>
    match returnNode.argument with
    | none => .ok none
    | some argument => .ok argument.name

/-- The function `isCallToFreeze`. -/
def isCallToFreeze (expr : Option Expr) : Except TypeError Bool :=
  (read "type" expr Expr.type).bind fun type =>
  if type != "CallExpression" then .ok false else
  (read "callee" expr Expr.callee).bind fun callee =>
  (read "object" callee Expr.object).bind fun object =>
  match object with
  | none => .ok false
  | some _ =>
    (read "property" callee Expr.property).bind fun property =>
    (read "name" property Expr.name).bind fun name =>
    .ok (name == some "freeze")

/-- The predicate `getFrozenObjects` passes to `_.filter`. -/
def isFreezeStatement (statement : Stmt) : Except TypeError Bool :=
  jsOr (jsAnd (.ok (statement.type == "ExpressionStatement")) (isCallToFreeze statement.expression)) <|
  jsAnd (.ok (statement.type == "VariableDeclaration")) <|
  (read "0" statement.declarations (fun ds => ds[0]?)).bind fun first =>
  (read "init" first VariableDeclarator.init).bind fun init =>
  isCallToFreeze init

/-- The name `getFrozenObjects` maps a selected statement to:
`_.get(statement.expression, (path) arguments[0].name) ||
_.get(statement, (path) declarations[0].id.name)`. -/
def frozenName (statement : Stmt) : Option String :=
  let first := ((statement.expression.bind Expr.arguments).bind (fun as => as[0]?)).bind Expr.name
  if truthy first then first
  else (statement.declarations.bind (fun ds => ds[0]?)).bind (fun d => d.id.name)

/-- The call `_.filter(definitionBody, ...)` of `getFrozenObjects`: the
statements selected, in order, the first exception aborting the call. -/
def filterFreezeStatements : List Stmt → Except TypeError (List Stmt)
  | [] => .ok []
  | statement :: rest =>
    match isFreezeStatement statement with
    | .error e => .error e
    | .ok selected =>
      match filterFreezeStatements rest with
      | .error e => .error e
      | .ok kept => .ok (if selected then statement :: kept else kept)

/-- The function `getFrozenObjects`. -/
def getFrozenObjects (node : ProgramNode) : Except TypeError (List (Option String)) :=
  (definitionBodyOf node).bind fun definitionBody =>
  (filterFreezeStatements definitionBody).bind fun statements =>
  .ok (statements.map frozenName)

/-- The handler `Program`.  It returns the closure variables as it leaves
them and either the diagnostics reported, in order, or the exception that
ended the call; an exception leaves the assignments made before it in
place, and nothing has been reported by then. -/
def Program (state : Context) (node : ProgramNode) : Context × Except TypeError (List Diagnostic) :=
  match isAmdModule node with
  | .error e => (state, .error e)
  | .ok false => (state, .ok [])
  | .ok true =>
    match getModuleDefinition node with
    | .error e => (state, .error e)
    | .ok moduleDefinition =>
      match getModuleDependencies node with
      | .error e => (state, .error e)
      | .ok moduleDependencies =>
        match getModuleReturnStatement node with
        | .error e => (⟨moduleDependencies, state.moduleReturnedVar, state.frozenObjects⟩, .error e)
        | .ok moduleReturnedVar =>
          match getFrozenObjects node with
          | .error e => (⟨moduleDependencies, moduleReturnedVar, state.frozenObjects⟩, .error e)
          | .ok frozenObjects =>
            let state' : Context := ⟨moduleDependencies, moduleReturnedVar, frozenObjects⟩
            (state', (getAllGlobalVars moduleDefinition).bind fun allGlobalVars =>
              (filterAllowed state' allGlobalVars).bind fun stateVars =>
              .ok (stateVars.map report))

/-! ## Sample trees -/

/-- The tree of `define(function (params) { body })`. -/
def defineFactory (params : List Pattern) (body : List Stmt) : ProgramNode :=
  ⟨[.ExpressionStatement (.CallExpression (.Identifier "define") [.FunctionExpression params body])]⟩

/-- The tree of `define([deps], function (params) { body })`. -/
def defineWithDeps (deps : List String) (params : List Pattern) (body : List Stmt) : ProgramNode :=
  ⟨[.ExpressionStatement (.CallExpression (.Identifier "define")
    [.ArrayExpression (deps.map fun d => some (.Literal (.string d))), .FunctionExpression params body])]⟩

/-- The statement `var name = init;` (`var name;` when `init` is absent). -/
def varStatement (name : String) (init : Option Expr) : Stmt :=
  .VariableDeclaration "var" [.mk (.Identifier name) init]

/-- The statement `Object.freeze(argument);`. -/
def freezeStatement (argument : Expr) : Stmt :=
  .ExpressionStatement (.CallExpression (.MemberExpression (.Identifier "Object") (.Identifier "freeze")) [argument])

/-- The statement `return name;`. -/
def returnStatement (name : String) : Stmt :=
  .ReturnStatement (some (.Identifier name))

/-- An object-literal property `key: value`. -/
def keyValue (key : String) (value : Expr) : PropertyNode :=
  .Property (.Identifier key) value

/-- The tree of `define(function(){ var x = 5; var y; return x; })`. -/
def literalAndBareModule : ProgramNode :=
  defineFactory [] [varStatement "x" (some (.Literal (.number "5"))), varStatement "y" none,
    returnStatement "x"]

/-- The tree of `define(5, [], function(){})`. -/
def numericIdModule : ProgramNode :=
  ⟨[.ExpressionStatement (.CallExpression (.Identifier "define")
    [.Literal (.number "5"), .ArrayExpression [], .FunctionExpression [] []])]⟩

/-- The tree of `define("id", function(){ var y; })`: a module id followed
directly by the factory. -/
def idThenFactoryModule : ProgramNode :=
  ⟨[.ExpressionStatement (.CallExpression (.Identifier "define")
    [.Literal (.string "id"), .FunctionExpression [] [varStatement "y" none]])]⟩

/-! ## Properties as the specification words them -/

/-- An expression node of type `FunctionExpression`. -/
def IsFunctionExpression (e : Expr) : Prop := ∃ params body, e = .FunctionExpression params body

/-- An expression node of type `ArrayExpression`. -/
def IsArrayExpression (e : Expr) : Prop := ∃ elements, e = .ArrayExpression elements

/-- An expression node of type `Literal`, whatever its value. -/
def IsLiteralNode (e : Expr) : Prop := ∃ value, e = .Literal value

/-- A `Literal` node whose value is a string. -/
def IsStringLiteral (e : Expr) : Prop := ∃ s, e = .Literal (.string s)

/-- The module shape of the specification: the root holds exactly one
statement, an expression statement calling `define` with one of the argument
lists `(fn)`, `(deps, fn)`, `(id, deps, fn)`, where `fn` is a function
expression, `deps` an array expression and `id` a node accepted by `idOk`. -/
def RecognisedShape (idOk : Expr → Prop) (root : ProgramNode) : Prop :=
  ∃ arguments,
    root.body = [.ExpressionStatement (.CallExpression (.Identifier "define") arguments)] ∧
    ((∃ fn, arguments = [fn] ∧ IsFunctionExpression fn) ∨
     (∃ deps fn, arguments = [deps, fn] ∧ IsArrayExpression deps ∧ IsFunctionExpression fn) ∨
     (∃ id deps fn, arguments = [id, deps, fn] ∧ idOk id ∧ IsArrayExpression deps ∧
        IsFunctionExpression fn))

/-- The candidates as the specification words them: the declarators,
flattened in source order, of the `var`-kind variable declarations among the
immediate statements of the factory body. -/
def topLevelVarDeclarators : List Stmt → List VariableDeclarator
  | [] => []
  | .VariableDeclaration kind declarations :: rest =>
    if kind = "var" then declarations ++ topLevelVarDeclarators rest
    else topLevelVarDeclarators rest
  | _ :: rest => topLevelVarDeclarators rest

/-- The tree of `define(["dep"], function(dep){ var cache = {}; return dep; })`. -/
def cacheModule : ProgramNode :=
  defineWithDeps ["dep"] [.Identifier "dep"]
    [varStatement "cache" (some (.ObjectExpression [])), returnStatement "dep"]

/-- The tree of `define(function(){ var x = this.a; })`. -/
def thisMemberModule : ProgramNode :=
  defineFactory []
    [varStatement "x" (some (.MemberExpression (.Other .ThisExpression) (.Identifier "a")))]

/-- The tree of `define(function(){ var x = foo().bar; })`. -/
def callMemberModule : ProgramNode :=
  defineFactory []
    [varStatement "x"
      (some (.MemberExpression (.CallExpression (.Identifier "foo") []) (.Identifier "bar")))]

/-- The tree of
`define(["dep"], function(dep){ var cache = {}; return cacheStore; })`. -/
def cacheStoreModule : ProgramNode :=
  defineWithDeps ["dep"] [.Identifier "dep"]
    [varStatement "cache" (some (.ObjectExpression [])), returnStatement "cacheStore"]

/-- The tree of `define(function(){ var u = util; return utils; })`. -/
def utilModule : ProgramNode :=
  defineFactory [] [varStatement "u" (some (.Identifier "util")), returnStatement "utils"]

/-- The tree of `define(function(){ Object.freeze(cfg.a); var s = new Foo(); })`. -/
def freezeMemberModule : ProgramNode :=
  defineFactory []
    [freezeStatement (.MemberExpression (.Identifier "cfg") (.Identifier "a")),
     varStatement "s" (some (.NewExpression (.Identifier "Foo") []))]

/-- The identifier a member-access chain starts from, as the specification
words the dependency rule: the name of a bare identifier, or of the identifier
at the root of the `object` chain of a member access; none when the chain
starts from another kind of node (or from an identifier without a name). -/
def rootIdentifier : Expr → Option String
  | .Identifier name => if name = "" then none else some name
  | .MemberExpression object _ => rootIdentifier object
  | _ => none

/-- The values a constant object literal may hold, as the code decides them:
a literal, a unary operator applied to a literal, a function expression, an
identifier or member-access chain rooted at a dependency name, or an object
literal that `isConstObject` itself accepts. -/
def ConstValue (ctx : Context) (value : Expr) : Prop :=
  IsLiteralNode value ∨
  (∃ operator argument, value = .UnaryExpression operator argument ∧ IsLiteralNode argument) ∨
  IsFunctionExpression value ∨
  (∃ name, rootIdentifier value = some name ∧ some name ∈ ctx.moduleDependencies) ∨
  isConstObject ctx (.expression value) = .ok true

/-- The tree of `define(function(){ Object.freeze(a); var x = {k: a}; })`. -/
def frozenValueModule : ProgramNode :=
  defineFactory []
    [freezeStatement (.Identifier "a"),
     varStatement "x" (some (.ObjectExpression [keyValue "k" (.Identifier "a")]))]

/-- The tree of `define(["a"], function(a){ var x = {k: a}; })`. -/
def dependencyValueModule : ProgramNode :=
  defineWithDeps ["a"] [.Identifier "a"]
    [varStatement "x" (some (.ObjectExpression [keyValue "k" (.Identifier "a")]))]

/-- The tree of `define(function(){ var x = {k: {}}; })`. -/
def nestedEmptyObjectModule : ProgramNode :=
  defineFactory []
    [varStatement "x" (some (.ObjectExpression [keyValue "k" (.ObjectExpression [])]))]

/-- The tree of `define(function(){ Object.freeze(x); var y = x; })`. -/
def freezeFirstModule : ProgramNode :=
  defineFactory [] [freezeStatement (.Identifier "x"), varStatement "y" (some (.Identifier "x"))]

/-- The tree of `define(function(){ var y = x; Object.freeze(x); })`. -/
def freezeLastModule : ProgramNode :=
  defineFactory [] [varStatement "y" (some (.Identifier "x")), freezeStatement (.Identifier "x")]

/-- The tree of
`define(function(){ var CONST = "x"; var obj = {a:1,b:2}; return obj; })`. -/
def returnedObjectModule : ProgramNode :=
  defineFactory []
    [varStatement "CONST" (some (.Literal (.string "x"))),
     varStatement "obj" (some (.ObjectExpression
       [keyValue "a" (.Literal (.number "1")), keyValue "b" (.Literal (.number "2"))])),
     returnStatement "obj"]

/-- The diagnostics `context.report` has received when the handler ends: all
of them when it returns, none when it throws, reporting being the last step
of the handler. -/
def reported : Except TypeError (List Diagnostic) → List Diagnostic
  | .ok diagnostics => diagnostics
  | .error _ => []

/-- The initializers the specification lists as plainly safe: a literal
(a regular-expression literal is one), a unary operator applied to a
literal, `new RegExp(...)` and a function expression. -/
def SafeInitializer (init : Expr) : Prop :=
  IsLiteralNode init ∨
  (∃ operator argument, init = .UnaryExpression operator argument ∧ IsLiteralNode argument) ∨
  (∃ arguments, init = .NewExpression (.Identifier "RegExp") arguments) ∨
  IsFunctionExpression init

/-- The tree of
`define(function(){ var a = 1, re = /x/g, n = -1; var r = new RegExp("x"); var f = function(){}; })`. -/
def plainlySafeModule : ProgramNode :=
  defineFactory []
    [.VariableDeclaration "var"
      [.mk (.Identifier "a") (some (.Literal (.number "1"))),
       .mk (.Identifier "re") (some (.Literal (.regex "x" "g"))),
       .mk (.Identifier "n") (some (.UnaryExpression "-" (.Literal (.number "1"))))],
     varStatement "r" (some (.NewExpression (.Identifier "RegExp") [.Literal (.string "x")])),
     varStatement "f" (some (.FunctionExpression [] []))]

/-- The tree of `define(function(){ var y; })`. -/
def bareDeclarationModule : ProgramNode :=
  defineFactory [] [varStatement "y" none]

/-- The returned identifier as the specification words it: the first return
statement among the immediate statements of the factory body decides; its
identifier name when its argument is a bare identifier, none otherwise. -/
def firstReturnName : List Stmt → Option String
  | [] => none
  | .ReturnStatement (some (.Identifier name)) :: _ => some name
  | .ReturnStatement _ :: _ => none
  | _ :: rest => firstReturnName rest

/-- The tree of `define(function(){ return 1; return x; })`. -/
def laterReturnModule : ProgramNode :=
  defineFactory [] [.ReturnStatement (some (.Literal (.number "1"))), returnStatement "x"]

/-- The tree of `define(function(){ { return x; } })`. -/
def nestedReturnModule : ProgramNode :=
  defineFactory [] [.BlockStatement [returnStatement "x"]]

/-- The tree of `define(function(){ var a = 1; return; return x; })`. -/
def bareReturnModule : ProgramNode :=
  defineFactory []
    [varStatement "a" (some (.Literal (.number "1"))), .ReturnStatement none, returnStatement "x"]

/-- The tree of `define("id", ["a", "b"], function(a, b){ return a; })`. -/
def namedModule : ProgramNode :=
  ⟨[.ExpressionStatement (.CallExpression (.Identifier "define")
    [.Literal (.string "id"),
     .ArrayExpression [some (.Literal (.string "a")), some (.Literal (.string "b"))],
     .FunctionExpression [.Identifier "a", .Identifier "b"] [returnStatement "a"]])]⟩

/-- A freeze call as the specification words it: a call whose callee is a
member access with a property named `freeze`. -/
def freezeCall : Expr → Bool
  | .CallExpression (.MemberExpression _ property) _ => property.name == some "freeze"
  | _ => false

/-- The bodies the claim on `getFrozenObjects` speaks of, statement by
statement: an expression statement that is a freeze call on an identifier, or
a `var` declaration all of whose declarators have an initializer. -/
def FreezeOrInitialised (statement : Stmt) : Prop :=
  (∃ object property name rest,
    statement = .ExpressionStatement
      (.CallExpression (.MemberExpression object property) (.Identifier name :: rest)) ∧
    property.name = some "freeze" ∧ name ≠ "") ∨
  (∃ id init declarations,
    statement = .VariableDeclaration "var" (.mk id (some init) :: declarations) ∧
    ∀ d ∈ declarations, ∃ init', d = .mk d.id (some init'))

/-- The frozen names of one statement as the claim states them: the first
argument of a freeze-call statement, and the name of every declarator whose
initializer is a freeze call. -/
def frozenNamesStated : Stmt → List (Option String)
  | .ExpressionStatement (.CallExpression callee (argument :: rest)) =>
    if freezeCall (.CallExpression callee (argument :: rest)) then [argument.name] else []
  | .VariableDeclaration _ declarations =>
    declarations.filterMap fun d =>
      match d.init with
      | some init => if freezeCall init then some d.id.name else none
      | none => none
  | _ => []

/-- The frozen names of one statement as the code collects them: the first
argument of a freeze-call statement, and the name of the first declarator of
a declaration when the initializer of that first declarator is a freeze call. -/
def frozenNamesFirst : Stmt → List (Option String)
  | .ExpressionStatement (.CallExpression callee (argument :: rest)) =>
    if freezeCall (.CallExpression callee (argument :: rest)) then [argument.name] else []
  | .VariableDeclaration _ (.mk id (some init) :: _) =>
    if freezeCall init then [id.name] else []
  | _ => []

/-- The statements
`Object.freeze(x); var a = 1, b = Object.freeze({}); var c = Object.freeze({}), d = 2;`. -/
def secondDeclaratorBody : List Stmt :=
  [freezeStatement (.Identifier "x"),
   .VariableDeclaration "var"
    [.mk (.Identifier "a") (some (.Literal (.number "1"))),
     .mk (.Identifier "b") (some (.CallExpression
        (.MemberExpression (.Identifier "Object") (.Identifier "freeze"))
        [.ObjectExpression []]))],
   .VariableDeclaration "var"
    [.mk (.Identifier "c") (some (.CallExpression
        (.MemberExpression (.Identifier "Object") (.Identifier "freeze"))
        [.ObjectExpression []])),
     .mk (.Identifier "d") (some (.Literal (.number "2")))]]

/-- The tree of `define(function(){ ... })` around `secondDeclaratorBody`. -/
def secondDeclaratorModule : ProgramNode :=
  defineFactory [] secondDeclaratorBody

/-- The tree of `define(function(){ var list = []; return undefined; })`. -/
def emptyArrayModule : ProgramNode :=
  defineFactory [] [varStatement "list" (some (.ArrayExpression [])), returnStatement "undefined"]

/-- The tree of `define(function(){ var list = []; })`. -/
def emptyArrayOnlyModule : ProgramNode :=
  defineFactory [] [varStatement "list" (some (.ArrayExpression []))]

/-- The tree of `define(function(){ var x = new applyFetch(); })`. -/
def newApplyFetchModule : ProgramNode :=
  defineFactory [] [varStatement "x" (some (.NewExpression (.Identifier "applyFetch") []))]

/-- The tree of `define(function(){ var c = new React.createClass({}); })`. -/
def newCreateClassModule : ProgramNode :=
  defineFactory []
    [varStatement "c" (some (.NewExpression
      (.MemberExpression (.Identifier "React") (.Identifier "createClass"))
      [.ObjectExpression []]))]

/-- The tree of `define(function(){ var x = applyFetch(); })`. -/
def applyFetchModule : ProgramNode :=
  defineFactory [] [varStatement "x" (some (.CallExpression (.Identifier "applyFetch") []))]


/-- The order in which a truth value computed under a context compares with
the one computed under a larger context: a value that was true stays true,
and a value that was false is still computed, as true or as false. -/
def Stays (a b : Except TypeError Bool) : Prop :=
  ∀ v, a = .ok v → b = .ok true ∨ (v = false ∧ b = .ok false)

/-- The lower-case letters (general category `Ll`) of Unicode 14.0, as runs
`(first, last, step)`. -/
def lowerCaseLetterRuns : List (Nat × Nat × Nat) :=
  [(97, 122, 1), (181, 181, 1), (223, 246, 1), (248, 255, 1), (257, 309, 2), (311, 312, 1),
   (314, 326, 2), (328, 329, 1), (331, 375, 2), (378, 380, 2), (382, 384, 1), (387, 389, 2),
   (392, 392, 1), (396, 397, 1), (402, 402, 1), (405, 405, 1), (409, 411, 1), (414, 414, 1),
   (417, 421, 2), (424, 424, 1), (426, 427, 1), (429, 429, 1), (432, 432, 1), (436, 438, 2),
   (441, 442, 1), (445, 447, 1), (454, 454, 1), (457, 457, 1), (460, 474, 2), (476, 477, 1),
   (479, 493, 2), (495, 496, 1), (499, 501, 2), (505, 561, 2), (563, 569, 1), (572, 572, 1),
   (575, 576, 1), (578, 578, 1), (583, 589, 2), (591, 659, 1), (661, 687, 1), (881, 883, 2),
   (887, 887, 1), (891, 893, 1), (912, 912, 1), (940, 974, 1), (976, 977, 1), (981, 983, 1),
   (985, 1005, 2), (1007, 1011, 1), (1013, 1013, 1), (1016, 1016, 1), (1019, 1020, 1), (1072, 1119, 1),
   (1121, 1153, 2), (1163, 1215, 2), (1218, 1228, 2), (1230, 1231, 1), (1233, 1327, 2), (1376, 1416, 1),
   (4304, 4346, 1), (4349, 4351, 1), (5112, 5117, 1), (7296, 7304, 1), (7424, 7467, 1), (7531, 7543, 1),
   (7545, 7578, 1), (7681, 7827, 2), (7829, 7837, 1), (7839, 7933, 2), (7935, 7943, 1), (7952, 7957, 1),
   (7968, 7975, 1), (7984, 7991, 1), (8000, 8005, 1), (8016, 8023, 1), (8032, 8039, 1), (8048, 8061, 1),
   (8064, 8071, 1), (8080, 8087, 1), (8096, 8103, 1), (8112, 8116, 1), (8118, 8119, 1), (8126, 8126, 1),
   (8130, 8132, 1), (8134, 8135, 1), (8144, 8147, 1), (8150, 8151, 1), (8160, 8167, 1), (8178, 8180, 1),
   (8182, 8183, 1), (8458, 8458, 1), (8462, 8463, 1), (8467, 8467, 1), (8495, 8495, 1), (8500, 8500, 1),
   (8505, 8505, 1), (8508, 8509, 1), (8518, 8521, 1), (8526, 8526, 1), (8580, 8580, 1), (11312, 11359, 1),
   (11361, 11361, 1), (11365, 11366, 1), (11368, 11372, 2), (11377, 11377, 1), (11379, 11380, 1), (11382, 11387, 1),
   (11393, 11489, 2), (11491, 11492, 1), (11500, 11502, 2), (11507, 11507, 1), (11520, 11557, 1), (11559, 11559, 1),
   (11565, 11565, 1), (42561, 42605, 2), (42625, 42651, 2), (42787, 42797, 2), (42799, 42801, 1), (42803, 42863, 2),
   (42865, 42872, 1), (42874, 42876, 2), (42879, 42887, 2), (42892, 42894, 2), (42897, 42897, 1), (42899, 42901, 1),
   (42903, 42921, 2), (42927, 42927, 1), (42933, 42947, 2), (42952, 42954, 2), (42961, 42969, 2), (42998, 42998, 1),
   (43002, 43002, 1), (43824, 43866, 1), (43872, 43880, 1), (43888, 43967, 1), (64256, 64262, 1), (64275, 64279, 1),
   (65345, 65370, 1), (66600, 66639, 1), (66776, 66811, 1), (66967, 66977, 1), (66979, 66993, 1), (66995, 67001, 1),
   (67003, 67004, 1), (68800, 68850, 1), (71872, 71903, 1), (93792, 93823, 1), (119834, 119859, 1), (119886, 119892, 1),
   (119894, 119911, 1), (119938, 119963, 1), (119990, 119993, 1), (119995, 119995, 1), (119997, 120003, 1), (120005, 120015, 1),
   (120042, 120067, 1), (120094, 120119, 1), (120146, 120171, 1), (120198, 120223, 1), (120250, 120275, 1), (120302, 120327, 1),
   (120354, 120379, 1), (120406, 120431, 1), (120458, 120485, 1), (120514, 120538, 1), (120540, 120545, 1), (120572, 120596, 1),
   (120598, 120603, 1), (120630, 120654, 1), (120656, 120661, 1), (120688, 120712, 1), (120714, 120719, 1), (120746, 120770, 1),
   (120772, 120777, 1), (120779, 120779, 1), (122624, 122633, 1), (122635, 122654, 1), (125218, 125251, 1)]

/-- A lower-case letter, as the specification says it: a character of the
general category `Ll`. -/
def isLowerCaseLetter (c : Char) : Bool :=
  lowerCaseLetterRuns.any fun r => r.1 ≤ c.toNat && c.toNat ≤ r.2.1 && (c.toNat - r.1) % r.2.2 == 0

/-- The tree of `define(function(){ var ĸ = {}; })`, whose declared name is
the letter U+0138. -/
def kraModule : ProgramNode :=
  defineFactory [] [varStatement "ĸ" (some (.ObjectExpression []))]

/-- The tree of `define(function(){ var é = {}; })`. -/
def eAcuteModule : ProgramNode :=
  defineFactory [] [varStatement "é" (some (.ObjectExpression []))]

/-- A literal, or a unary operator applied to a literal. -/
def literalValued : Expr → Bool
  | .Literal _ => true
  | .UnaryExpression _ (.Literal _) => true
  | _ => false

/-- A function expression. -/
def functionValued : Expr → Bool
  | .FunctionExpression _ _ => true
  | _ => false

/-- An identifier named in the dependency names `D`, or a member-access chain
whose root object is such an identifier. -/
def dependencyRooted (D : List String) (value : Expr) : Bool :=
  match rootIdentifier value with
  | some name => D.contains name
  | none => false

mutual
/-- The constant object literals of the amended constant-object rule, for the
dependency names `D`: a non-empty object literal every one of whose properties
is a constant property. -/
def constantObject (D : List String) : Expr → Bool
  | .ObjectExpression properties => !properties.isEmpty && constantProperties D properties
  | _ => false
/-- Every property of the list is a constant property. -/
def constantProperties (D : List String) : List PropertyNode → Bool
  | [] => true
  | property :: rest => constantProperty D property && constantProperties D rest
/-- A constant property: a `key: value` pair whose value is a literal or
unary-of-literal, a function expression, an identifier or member-access chain
rooted at a dependency name, or itself a constant object literal. -/
def constantProperty (D : List String) : PropertyNode → Bool
  | .Property _ value =>
    literalValued value || functionValued value || dependencyRooted D value ||
      constantObject D value
  | .SpreadElement _ => false
end

/-- The object literal `{k: {j: foo()}}`. -/
def nestedCallObject : Expr :=
  .ObjectExpression [keyValue "k"
    (.ObjectExpression [keyValue "j" (.CallExpression (.Identifier "foo") [])])]

/-- The object literal `{k: {j: dep.a, f: function(){}}, n: -1}`. -/
def nestedConstantObject : Expr :=
  .ObjectExpression
    [keyValue "k" (.ObjectExpression
      [keyValue "j" (.MemberExpression (.Identifier "dep") (.Identifier "a")),
       keyValue "f" (.FunctionExpression [] [])]),
     keyValue "n" (.UnaryExpression "-" (.Literal (.number "1")))]

/-- The tree of `define(function(){ Object.freeze(x); return q; var y = x; })`. -/
def freezeReturnModule : ProgramNode :=
  defineFactory []
    [freezeStatement (.Identifier "x"), returnStatement "q",
     varStatement "y" (some (.Identifier "x"))]

/-! # Theorems -/

/-! ## The module recogniser -/

theorem ExprKind.type_ne (k : ExprKind) :
    k.type ≠ "FunctionExpression" ∧ k.type ≠ "ArrayExpression" ∧ k.type ≠ "Literal" ∧
    k.type ≠ "CallExpression" := by
  cases k <;> decide

theorem type_eq_function (e : Expr) : e.type = "FunctionExpression" ↔ IsFunctionExpression e := by
  cases e <;> simp [Expr.type, IsFunctionExpression, (ExprKind.type_ne _).1]

theorem type_eq_array (e : Expr) : e.type = "ArrayExpression" ↔ IsArrayExpression e := by
  cases e <;> simp [Expr.type, IsArrayExpression, (ExprKind.type_ne _).2.1]

theorem type_eq_literal (e : Expr) : e.type = "Literal" ↔ IsLiteralNode e := by
  cases e <;> simp [Expr.type, IsLiteralNode, (ExprKind.type_ne _).2.2.1]

theorem isAmdModule_call (callee : Expr) (arguments : List Expr) :
    isAmdModule ⟨[.ExpressionStatement (.CallExpression callee arguments)]⟩ =
      if callee.name = some "define" then
        (if (arguments.length == 0 || decide (arguments.length > 3)) = true then .ok false
         else everyDefineType arguments.reverse defineTypes)
      else .ok false := by
  by_cases h : callee.name = some "define" <;>
    simp [isAmdModule, moduleIsWrappedWithDefine, jsAnd, read, Stmt.type, Stmt.expression,
      Expr.callee, Expr.type, Expr.arguments, Except.bind, h]

theorem isAmdModule_not_call (root : ProgramNode)
    (h : ∀ callee arguments, root.body ≠ [.ExpressionStatement (.CallExpression callee arguments)]) :
    isAmdModule root = .ok false := by
  obtain ⟨body⟩ := root
  match body with
  | [] => simp [isAmdModule, moduleIsWrappedWithDefine, jsAnd, Except.bind]
  | _ :: _ :: _ => simp [isAmdModule, moduleIsWrappedWithDefine, jsAnd, Except.bind]
  | [s] =>
    cases s with
    | ExpressionStatement e =>
      cases e with
      | CallExpression c a => exact absurd rfl (h c a)
      | NewExpression c a =>
        by_cases hc : c.name = some "define" <;>
        simp [isAmdModule, moduleIsWrappedWithDefine, jsAnd, read, Stmt.type, Stmt.expression,
          Expr.callee, Expr.type, Except.bind, hc]
      | _ =>
        simp [isAmdModule, moduleIsWrappedWithDefine, jsAnd, read, Stmt.type, Stmt.expression,
          Expr.callee, Except.bind]
    | Other k =>
      have : (k.type == "ExpressionStatement") = false := by cases k <;> decide
      simp [isAmdModule, moduleIsWrappedWithDefine, jsAnd, read, Stmt.type, Except.bind, this]
    | _ => simp [isAmdModule, moduleIsWrappedWithDefine, jsAnd, read, Stmt.type, Except.bind]

theorem everyDefineType_total (arguments : List Expr) (h : arguments.length ≤ 3) :
    ∃ b, everyDefineType arguments defineTypes = .ok b := by
  match arguments, h with
  | [], _ => exact ⟨true, rfl⟩
  | [a], _ =>
    by_cases h1 : a.type = "FunctionExpression" <;> simp [everyDefineType, defineTypes, h1]
  | [a, b], _ =>
    by_cases h1 : a.type = "FunctionExpression" <;> by_cases h2 : b.type = "ArrayExpression" <;>
      simp [everyDefineType, defineTypes, h1, h2]
  | [a, b, c], _ =>
    by_cases h1 : a.type = "FunctionExpression" <;> by_cases h2 : b.type = "ArrayExpression" <;>
      by_cases h3 : c.type = "Literal" <;>
      simp [everyDefineType, defineTypes, h1, h2, h3]

theorem isAmdModule_total (root : ProgramNode) : ∃ b, isAmdModule root = .ok b := by
  by_cases h : ∃ callee arguments,
      root.body = [.ExpressionStatement (.CallExpression callee arguments)]
  · obtain ⟨callee, arguments, hb⟩ := h
    obtain ⟨body⟩ := root
    simp only at hb
    subst hb
    rw [isAmdModule_call]
    split
    · split
      · exact ⟨false, rfl⟩
      · rename_i hlen
        apply everyDefineType_total
        simp at hlen
        simp
        omega
    · exact ⟨false, rfl⟩
  · refine ⟨false, isAmdModule_not_call root ?_⟩
    intro c a hb
    exact h ⟨c, a, hb⟩

theorem everyDefineType_shape (arguments : List Expr) (h : arguments.length ≠ 0)
    (h3 : arguments.length ≤ 3) :
    everyDefineType arguments.reverse defineTypes = .ok true ↔
      ((∃ fn, arguments = [fn] ∧ IsFunctionExpression fn) ∨
       (∃ deps fn, arguments = [deps, fn] ∧ IsArrayExpression deps ∧ IsFunctionExpression fn) ∨
       (∃ id deps fn, arguments = [id, deps, fn] ∧ IsLiteralNode id ∧ IsArrayExpression deps ∧
          IsFunctionExpression fn)) := by
  match arguments, h, h3 with
  | [a], _, _ =>
    by_cases h1 : a.type = "FunctionExpression" <;>
      simp [everyDefineType, defineTypes, h1, ← type_eq_function]
  | [b, a], _, _ =>
    by_cases h1 : a.type = "FunctionExpression" <;> by_cases h2 : b.type = "ArrayExpression" <;>
      simp [everyDefineType, defineTypes, h1, h2, ← type_eq_function, ← type_eq_array]
    exact ⟨_, _, ⟨rfl, rfl⟩, h2, h1⟩
  | [c, b, a], _, _ =>
    by_cases h1 : a.type = "FunctionExpression" <;> by_cases h2 : b.type = "ArrayExpression" <;>
      by_cases h3 : c.type = "Literal" <;>
      simp [everyDefineType, defineTypes, h1, h2, h3, ← type_eq_function, ← type_eq_array,
        ← type_eq_literal]
    exact ⟨_, _, _, ⟨rfl, rfl, rfl⟩, h3, h2, h1⟩

theorem isAmdModule_iff_shape (root : ProgramNode) :
    isAmdModule root = .ok true ↔ RecognisedShape IsLiteralNode root := by
  constructor
  · intro h
    by_cases hc : ∃ callee arguments,
        root.body = [.ExpressionStatement (.CallExpression callee arguments)]
    · obtain ⟨callee, arguments, hb⟩ := hc
      obtain ⟨body⟩ := root
      simp only at hb
      subst hb
      rw [isAmdModule_call] at h
      split at h
      · rename_i hname
        split at h
        · simp at h
        · rename_i hlen
          simp only [Bool.or_eq_true, beq_iff_eq, decide_eq_true_eq, not_or] at hlen
          have hcallee : callee = .Identifier "define" := by
            cases callee <;> simp_all [Expr.name]
          subst hcallee
          exact ⟨arguments, rfl, (everyDefineType_shape arguments (by omega) (by omega)).1 h⟩
      · simp at h
    · rw [isAmdModule_not_call root (fun c a hb => hc ⟨c, a, hb⟩)] at h
      simp at h
  · rintro ⟨arguments, hb, hshape⟩
    obtain ⟨body⟩ := root
    simp only at hb
    subst hb
    rw [isAmdModule_call]
    have hlen : arguments.length ≠ 0 ∧ arguments.length ≤ 3 := by
      rcases hshape with ⟨_, rfl, _⟩ | ⟨_, _, rfl, _⟩ | ⟨_, _, _, rfl, _⟩ <;> simp
    have hcond : ¬ ((arguments.length == 0 || decide (arguments.length > 3)) = true) := by
      simp only [Bool.or_eq_true, beq_iff_eq, decide_eq_true_eq, not_or]; omega
    simp only [Expr.name, if_true, if_neg hcond]
    exact (everyDefineType_shape arguments hlen.1 hlen.2).2 hshape

/-! ## Claims on the module recogniser -/

/-- C1 (failing input): on `define(function(){ var x = 5; var y; return x; })`
the module is recognised, `getFrozenObjects` throws on the declaration
`var y;`, whose first declarator has no initializer, and the `Program` handler
ends with that exception, so that no diagnostic is reported for `y`. -/
theorem c1_bare_declaration_throws (state : Context) :
    isAmdModule literalAndBareModule = .ok true ∧
    getFrozenObjects literalAndBareModule = .error (.cannotReadProperty "type") ∧
    (Program state literalAndBareModule).2 = .error (.cannotReadProperty "type") :=
  ⟨rfl, rfl, rfl⟩

/-- C2 (counterexample): `define(5, [], function(){})` is recognised as a
module although its third-to-last argument is a numeric literal, not a string
literal. -/
theorem c2_numeric_id_recognised :
    isAmdModule numericIdModule = .ok true ∧ ¬ RecognisedShape IsStringLiteral numericIdModule := by
  refine ⟨rfl, ?_⟩
  rintro ⟨arguments, hbody, hshape⟩
  simp only [numericIdModule, List.cons.injEq, Stmt.ExpressionStatement.injEq,
    Expr.CallExpression.injEq, true_and, and_true] at hbody
  subst hbody
  rcases hshape with ⟨_, h, _⟩ | ⟨_, _, h, _⟩ | ⟨id, _, _, h, ⟨s, hs⟩, _⟩
  · simp at h
  · simp at h
  · simp only [List.cons.injEq, and_true] at h
    rw [← h.1] at hs
    simp at hs

/-- C2 (amended): `isAmdModule` answers true exactly for a root whose body is
the single expression statement `define(fn)`, `define(deps, fn)` or
`define(id, deps, fn)`, with `fn` a function expression, `deps` an array
expression and `id` a `Literal` node of any value. -/
theorem c2_isAmdModule_iff_shape (root : ProgramNode) :
    isAmdModule root = .ok true ↔ RecognisedShape IsLiteralNode root :=
  isAmdModule_iff_shape root

/-- C3: `isAmdModule` never throws, and on a root it rejects the `Program`
handler returns without an exception, without a diagnostic and without
touching the closure variables. -/
theorem c3_non_module_is_silent (state : Context) (root : ProgramNode) :
    (∃ b, isAmdModule root = .ok b) ∧
    (isAmdModule root = .ok false → Program state root = (state, .ok [])) := by
  refine ⟨isAmdModule_total root, fun h => ?_⟩
  simp [Program, h]

/-- C3 (witness): `define("id", function(){ var y; })` is rejected and yields
nothing. -/
theorem c3_non_module_is_silent_witness :
    isAmdModule idThenFactoryModule = .ok false ∧
    Program Context.initial idThenFactoryModule = (Context.initial, .ok []) :=
  ⟨rfl, (c3_non_module_is_silent Context.initial idThenFactoryModule).2 rfl⟩

/-! ## Candidates and reporting -/

theorem getAllGlobalVars_eq (body : List Stmt) :
    getAllGlobalVars (some body) = .ok (topLevelVarDeclarators body) := by
  simp only [getAllGlobalVars, read, Except.bind, id]
  congr 1
  induction body with
  | nil => rfl
  | cons s rest ih =>
    cases s with
    | VariableDeclaration kind declarations =>
      by_cases hk : kind = "var"
      · simp [topLevelVarDeclarators, Stmt.type, Stmt.kind, Stmt.declarations, hk, List.filter_cons, ← ih]
      · simp [topLevelVarDeclarators, Stmt.type, Stmt.kind, hk, List.filter_cons, ← ih]
    | Other k =>
      have : (k.type == "VariableDeclaration") = false := by cases k <;> decide
      simp [topLevelVarDeclarators, Stmt.type, List.filter_cons, this, ← ih]
    | _ => simp [topLevelVarDeclarators, Stmt.type, List.filter_cons, ← ih]

theorem mem_topLevelVarDeclarators (body : List Stmt) (d : VariableDeclarator)
    (h : d ∈ topLevelVarDeclarators body) :
    ∃ declarations, Stmt.VariableDeclaration "var" declarations ∈ body ∧ d ∈ declarations := by
  induction body with
  | nil => simp [topLevelVarDeclarators] at h
  | cons s rest ih =>
    cases s with
    | VariableDeclaration kind declarations =>
      by_cases hk : kind = "var"
      · subst hk
        simp only [topLevelVarDeclarators, if_true, List.mem_append] at h
        rcases h with h | h
        · exact ⟨declarations, List.mem_cons_self _ _, h⟩
        · obtain ⟨ds, hm, hd⟩ := ih h
          exact ⟨ds, List.mem_cons_of_mem _ hm, hd⟩
      · simp only [topLevelVarDeclarators, if_neg hk] at h
        obtain ⟨ds, hm, hd⟩ := ih h
        exact ⟨ds, List.mem_cons_of_mem _ hm, hd⟩
    | _ =>
      simp only [topLevelVarDeclarators] at h
      obtain ⟨ds, hm, hd⟩ := ih h
      exact ⟨ds, List.mem_cons_of_mem _ hm, hd⟩

theorem filterAllowed_sublist (ctx : Context) (vars kept : List VariableDeclarator)
    (h : filterAllowed ctx vars = .ok kept) : kept.Sublist vars := by
  induction vars generalizing kept with
  | nil =>
    simp only [filterAllowed, Except.ok.injEq] at h
    subst h
    exact List.Sublist.refl _
  | cons node rest ih =>
    simp only [filterAllowed] at h
    cases ha : isAllowed ctx node with
    | error e => simp [ha] at h
    | ok allowed =>
      cases hr : filterAllowed ctx rest with
      | error e => simp [ha, hr] at h
      | ok kept' =>
        simp only [ha, hr, Except.ok.injEq] at h
        subst h
        cases allowed
        · simpa using (ih kept' hr)
        · simpa using (ih kept' hr).cons node

theorem module_parts (root : ProgramNode) (h : isAmdModule root = .ok true) :
    ∃ arguments params body,
      root.body = [.ExpressionStatement (.CallExpression (.Identifier "define") arguments)] ∧
      arguments.getLast? = some (.FunctionExpression params body) ∧
      functionArguments root = .ok [.FunctionExpression params body] ∧
      definitionBodyOf root = .ok body := by
  obtain ⟨arguments, hbody, hshape⟩ := (isAmdModule_iff_shape root).1 h
  obtain ⟨body⟩ := root
  simp only at hbody
  subst hbody
  rcases hshape with ⟨_, rfl, ⟨params, body, rfl⟩⟩ |
    ⟨_, _, rfl, ⟨els, rfl⟩, ⟨params, body, rfl⟩⟩ |
    ⟨_, _, _, rfl, ⟨v, rfl⟩, ⟨els, rfl⟩, ⟨params, body, rfl⟩⟩
  · exact ⟨_, params, body, rfl, rfl, rfl, rfl⟩
  · exact ⟨_, params, body, rfl, rfl, rfl, rfl⟩
  · exact ⟨_, params, body, rfl, rfl, rfl, rfl⟩

theorem getModuleReturnStatement_total (root : ProgramNode) (body : List Stmt)
    (h : definitionBodyOf root = .ok body) : ∃ r, getModuleReturnStatement root = .ok r := by
  simp only [getModuleReturnStatement, h, Except.bind]
  split
  · exact ⟨_, rfl⟩
  · split <;> exact ⟨_, rfl⟩

/-- C4: when the handler completes on a recognised module, the factory is the
last argument of the `define` call; the candidates `getAllGlobalVars` extracts
are the declarators, in source order, of the `var` declarations among the
immediate statements of its body; the diagnostics are, in order, the message
`<id name> defined in module scope.` with no fix for each declarator
`filterAllowed` keeps; what `filterAllowed` keeps is a sub-list, in order, of
what it is given; and every reported declarator belongs to a `var`
declaration that is an immediate statement of the factory body. -/
theorem c4_diagnostics_follow_declarations (state state' : Context) (root : ProgramNode)
    (diagnostics : List Diagnostic) (hmodule : isAmdModule root = .ok true)
    (hdone : Program state root = (state', .ok diagnostics)) :
    ∃ arguments params body kept,
      root.body = [.ExpressionStatement (.CallExpression (.Identifier "define") arguments)] ∧
      arguments.getLast? = some (.FunctionExpression params body) ∧
      getModuleDefinition root = .ok (some body) ∧
      getAllGlobalVars (some body) = .ok (topLevelVarDeclarators body) ∧
      filterAllowed state' (topLevelVarDeclarators body) = .ok kept ∧
      diagnostics = kept.map
        (fun d => ⟨toStringJS d.id.name ++ " defined in module scope.", none⟩) ∧
      (∀ d ∈ kept, ∃ declarations,
        Stmt.VariableDeclaration "var" declarations ∈ body ∧ d ∈ declarations) ∧
      (∀ ctx vars out, filterAllowed ctx vars = .ok out → out.Sublist vars) := by
  obtain ⟨arguments, params, body, hbody, hlast, hfun, hdef⟩ := module_parts root hmodule
  obtain ⟨r, hr⟩ := getModuleReturnStatement_total root body hdef
  have hmd : getModuleDefinition root = .ok (some body) := by
    simp [getModuleDefinition, hfun, Except.bind, Expr.body]
  have hdeps : getModuleDependencies root = .ok (params.map Pattern.name) := by
    simp [getModuleDependencies, hfun, Except.bind, Expr.params]
  simp only [Program, hmodule, hmd, hdeps, hr] at hdone
  cases hf : getFrozenObjects root with
  | error e => simp [hf] at hdone
  | ok frozen =>
    simp only [hf, getAllGlobalVars_eq, Except.bind, Prod.mk.injEq] at hdone
    obtain ⟨hstate, hres⟩ := hdone
    subst hstate
    cases hk : filterAllowed ⟨params.map Pattern.name, r, frozen⟩ (topLevelVarDeclarators body) with
    | error e => simp [hk] at hres
    | ok kept =>
      simp only [hk, Except.ok.injEq] at hres
      refine ⟨arguments, params, body, kept, hbody, hlast, hmd, getAllGlobalVars_eq body, hk, ?_,
        ?_, filterAllowed_sublist⟩
      · rw [← hres]
        rfl
      · intro d hd
        exact mem_topLevelVarDeclarators body d ((filterAllowed_sublist _ _ _ hk).subset hd)

/-- C4 (witness): `define(["dep"], function(dep){ var cache = {}; return dep; })`
completes with the one diagnostic for `cache`. -/
theorem c4_diagnostics_follow_declarations_witness :
    isAmdModule cacheModule = .ok true ∧
    Program Context.initial cacheModule =
      (⟨[some "dep"], some "dep", []⟩, .ok [⟨"cache defined in module scope.", none⟩]) ∧
    ∃ arguments params body kept,
      cacheModule.body =
        [.ExpressionStatement (.CallExpression (.Identifier "define") arguments)] ∧
      arguments.getLast? = some (.FunctionExpression params body) ∧
      getModuleDefinition cacheModule = .ok (some body) ∧
      getAllGlobalVars (some body) = .ok (topLevelVarDeclarators body) ∧
      filterAllowed ⟨[some "dep"], some "dep", []⟩ (topLevelVarDeclarators body) = .ok kept ∧
      [(⟨"cache defined in module scope.", none⟩ : Diagnostic)] = kept.map
        (fun d => ⟨toStringJS d.id.name ++ " defined in module scope.", none⟩) ∧
      (∀ d ∈ kept, ∃ declarations,
        Stmt.VariableDeclaration "var" declarations ∈ body ∧ d ∈ declarations) ∧
      (∀ ctx vars out, filterAllowed ctx vars = .ok out → out.Sublist vars) :=
  ⟨rfl, rfl, c4_diagnostics_follow_declarations Context.initial _ cacheModule _ rfl rfl⟩


/-! ## Claims on the classifier -/

/-- C5 (failing input): on `var x = this.a` and on `var x = foo().bar`, whose
member chains do not end in an identifier, `getObjectName` throws instead of
yielding no name, `isDep` and `filterAllowed` throw with it, and the handler
ends with the exception on `define(function(){ var x = this.a; })` and on
`define(function(){ var x = foo().bar; })`: the declarator is not reported. -/
theorem c5_member_chain_throws (state : Context) (ctx : Context) :
    getObjectName (some (.Other .ThisExpression)) = .error (.cannotReadProperty "name") ∧
    isDep ctx (.declarator (.mk (.Identifier "x")
      (some (.MemberExpression (.Other .ThisExpression) (.Identifier "a"))))) =
        .error (.cannotReadProperty "name") ∧
    (Program state thisMemberModule).2 = .error (.cannotReadProperty "name") ∧
    (Program state callMemberModule).2 = .error (.cannotReadProperty "name") :=
  ⟨rfl, rfl, rfl, rfl⟩

/-- C6 (failing input): in
`define(["dep"], function(dep){ var cache = {}; return cacheStore; })` the
name `cache` is not all-caps, not frozen and not the returned identifier
`cacheStore`, yet `isReturnedObject` exempts the declarator, `cache` being a
substring of `cacheStore`, and nothing is reported; with `return dep` in
place of `return cacheStore` the declarator is reported. -/
theorem c6_empty_object_not_reported (state : Context) :
    isUpperCase (.mk (.Identifier "cache") (some (.ObjectExpression []))) = false ∧
    getFrozenObjects cacheStoreModule = .ok [] ∧
    getModuleReturnStatement cacheStoreModule = .ok (some "cacheStore") ∧
    isReturnedObject ⟨[some "dep"], some "cacheStore", []⟩
      (.mk (.Identifier "cache") (some (.ObjectExpression []))) = .ok true ∧
    (Program state cacheStoreModule).2 = .ok [] ∧
    (Program state cacheModule).2 = .ok [⟨"cache defined in module scope.", none⟩] :=
  ⟨by decide, rfl, rfl, rfl, rfl, rfl⟩

/-- C7 (failing input): in `define(function(){ var u = util; return utils; })`
the initializer `util` is a proper substring of the returned identifier
`utils`, and `isReturnedObject` exempts the declarator, so that nothing is
reported; the module
`define(function(){ var CONST = "x"; var obj = {a:1,b:2}; return obj; })`
yields no diagnostic either. -/
theorem c7_substring_is_exempted (state : Context) :
    getModuleReturnStatement utilModule = .ok (some "utils") ∧
    isReturnedObject ⟨[], some "utils", []⟩ (.mk (.Identifier "u") (some (.Identifier "util"))) =
      .ok true ∧
    (Program state utilModule).2 = .ok [] ∧
    (Program state returnedObjectModule).2 = .ok [] :=
  ⟨rfl, rfl, rfl, rfl⟩

/-- C9 (failing input): in
`define(function(){ Object.freeze(cfg.a); var s = new Foo(); })` the freeze
call, whose argument is not an identifier, puts `undefined` in the frozen
list; `isFrozen` looks `undefined` up for the `new` expression, finds it, and
the declarator `s` is exempted: nothing is reported. -/
theorem c9_new_expression_is_exempted (state : Context) :
    getFrozenObjects freezeMemberModule = .ok [none] ∧
    isFrozen ⟨[], none, [none]⟩
      (.mk (.Identifier "s") (some (.NewExpression (.Identifier "Foo") []))) = .ok true ∧
    (Program state freezeMemberModule).2 = .ok [] :=
  ⟨rfl, rfl, rfl⟩


/-! ## The constant-object rule -/

theorem getObjectNameOf_eq : ∀ e : Expr, getObjectNameOf e =
    match rootIdentifier e with
    | some name => .ok name
    | none => .error (.cannotReadProperty "name")
  | .Identifier name => by
    by_cases h : name = "" <;> simp [getObjectNameOf, rootIdentifier, h]
  | .MemberExpression object _ => by
    simp only [getObjectNameOf, rootIdentifier]
    exact getObjectNameOf_eq object
  | .Literal _ => rfl
  | .UnaryExpression _ _ => rfl
  | .BinaryExpression _ _ _ => rfl
  | .FunctionExpression _ _ => rfl
  | .ArrayExpression _ => rfl
  | .ObjectExpression _ => rfl
  | .CallExpression _ _ => rfl
  | .NewExpression _ _ => rfl
  | .Other _ => rfl

theorem ExprKind.type_ne_classified (k : ExprKind) :
    k.type ≠ "Identifier" ∧ k.type ≠ "MemberExpression" ∧ k.type ≠ "Literal" ∧
    k.type ≠ "UnaryExpression" ∧ k.type ≠ "FunctionExpression" ∧ k.type ≠ "ObjectExpression" := by
  cases k <;> decide

theorem isLiteral_expression (value : Expr) :
    ∃ b, isLiteral (.expression value) = .ok b ∧
      (b = true ↔ (IsLiteralNode value ∨
        ∃ operator argument, value = .UnaryExpression operator argument ∧
          IsLiteralNode argument)) := by
  cases value with
  | UnaryExpression operator argument =>
    refine ⟨argument.type == "Literal", ?_, ?_⟩
    · have ht : (Expr.UnaryExpression operator argument).type = "UnaryExpression" := rfl
      simp [isLiteral, getPropType, argTypeOf, Expr.argument, Except.bind, ht]
    · rw [beq_iff_eq, type_eq_literal]
      constructor
      · intro h
        exact Or.inr ⟨_, _, rfl, h⟩
      · rintro (⟨v, hv⟩ | ⟨_, _, h, ha⟩)
        · cases hv
        · cases h
          exact ha
  | Other k =>
    refine ⟨_, rfl, ?_⟩
    simp [argTypeOf, Expr.argument, Expr.type, IsLiteralNode,
      (ExprKind.type_ne_classified k).2.2.1, (ExprKind.type_ne_classified k).2.2.2.1]
  | _ =>
    refine ⟨_, rfl, ?_⟩
    simp [argTypeOf, Expr.argument, Expr.type, IsLiteralNode]

theorem isFunction_expression (value : Expr) :
    ∃ b, isFunction (.expression value) = .ok b ∧ (b = true ↔ IsFunctionExpression value) := by
  refine ⟨_, rfl, ?_⟩
  simp [← type_eq_function]

theorem isDep_expression (ctx : Context) (hD : none ∉ ctx.moduleDependencies) (value : Expr) :
    isDep ctx (.expression value) = .ok true ↔
      ∃ name, rootIdentifier value = some name ∧ some name ∈ ctx.moduleDependencies := by
  cases value with
  | Identifier name =>
    by_cases h : name = "" <;>
      simp [isDep, getPropType, getPropName, getPropObject, Except.bind, Expr.type, Expr.name,
        Expr.object, truthy, includesArray, rootIdentifier, h, hD]
  | MemberExpression object property =>
    simp only [isDep, getPropType, getPropName, getPropObject, Except.bind, Expr.type, Expr.name,
      Expr.object, truthy, getObjectName, rootIdentifier, getObjectNameOf_eq object]
    cases rootIdentifier object <;> simp [Except.map, includesArray]
  | Other k =>
    simp [isDep, getPropType, getPropName, getPropObject, Except.bind, Expr.type, Expr.name,
      Expr.object, truthy, includesArray, rootIdentifier, hD,
      (ExprKind.type_ne_classified k).1, (ExprKind.type_ne_classified k).2.1]
  | _ =>
    simp [isDep, getPropType, getPropName, getPropObject, Except.bind, Expr.type, Expr.name,
      Expr.object, truthy, includesArray, rootIdentifier, hD]

theorem isConstObject_expression (ctx : Context) (value : Expr) :
    isConstObject ctx (.expression value) = isConstObjectExpr ctx value := by
  cases value with
  | ObjectExpression properties =>
    simp [isConstObject, isConstObjectExpr, getPropType, getPropProperties, Except.bind,
      Expr.type, Expr.properties]
  | Other k =>
    simp [isConstObject, isConstObjectExpr, getPropType, getPropProperties, Except.bind,
      Expr.type, (ExprKind.type_ne_classified k).2.2.2.2.2]
  | _ =>
    simp [isConstObject, isConstObjectExpr, getPropType, getPropProperties, Except.bind,
      Expr.type]

theorem isConstObject_declarator (ctx : Context) (id : Pattern) (init : Expr) :
    isConstObject ctx (.declarator (.mk id (some init))) = isConstObjectExpr ctx init := by
  rw [← isConstObject_expression]
  rfl

theorem isConstObject_expression_object (ctx : Context) (value : Expr)
    (h : isConstObject ctx (.expression value) = .ok true) :
    ∃ properties, value = .ObjectExpression properties := by
  rw [isConstObject_expression] at h
  cases value with
  | ObjectExpression properties => exact ⟨properties, rfl⟩
  | _ => simp [isConstObjectExpr] at h

theorem isDep_objectExpression (ctx : Context) (properties : List PropertyNode) :
    isDep ctx (.expression (.ObjectExpression properties)) =
      .ok (includesArray ctx.moduleDependencies none) := by
  simp [isDep, getPropType, getPropName, getPropObject, Except.bind, Expr.type, Expr.name,
    Expr.object, truthy]

theorem valueConst_iff (ctx : Context) (hD : none ∉ ctx.moduleDependencies) (p : PropertyNode) :
    valueConst ctx p = .ok true ↔ ∃ key value, p = .Property key value ∧ ConstValue ctx value := by
  cases p with
  | SpreadElement argument =>
    simp [valueConst, PropertyNode.value, isLiteral, getPropType, Except.bind, jsOr]
  | Property key value =>
    obtain ⟨b1, h1, hb1⟩ := isLiteral_expression value
    obtain ⟨b2, h2, hb2⟩ := isFunction_expression value
    have hdep := isDep_expression ctx hD value
    have hobj := isConstObject_expression_object ctx value
    have hnone : includesArray ctx.moduleDependencies none = false := by
      simp [includesArray, hD]
    simp only [valueConst, PropertyNode.value, h1, h2, PropertyNode.Property.injEq,
      ConstValue, isConstObject_expression]
    constructor
    · intro h
      refine ⟨key, value, ⟨rfl, rfl⟩, ?_⟩
      cases b1 with
      | true => exact (hb1.1 rfl).elim (fun h => Or.inl h) (fun h => Or.inr (Or.inl h))
      | false =>
        cases b2 with
        | true => exact Or.inr (Or.inr (Or.inl (hb2.1 rfl)))
        | false =>
          cases hd : isDep ctx (.expression value) with
          | error e => simp [jsOr, hd] at h
          | ok b3 =>
            cases b3 with
            | true => exact Or.inr (Or.inr (Or.inr (Or.inl (hdep.1 hd))))
            | false =>
              simp only [jsOr, hd] at h
              exact Or.inr (Or.inr (Or.inr (Or.inr h)))
    · rintro ⟨k, v, ⟨-, rfl⟩, hv⟩
      cases b1 with
      | true => rfl
      | false =>
        cases b2 with
        | true => rfl
        | false =>
          rcases hv with hv | hv | hv | hv | hv
          · exact absurd (hb1.2 (Or.inl hv)) (by simp)
          · exact absurd (hb1.2 (Or.inr hv)) (by simp)
          · exact absurd (hb2.2 hv) (by simp)
          · simp [jsOr, hdep.2 hv]
          · obtain ⟨ps, rfl⟩ := hobj ((isConstObject_expression ctx value).trans hv)
            simp only [jsOr, isDep_objectExpression, hnone]
            exact hv

theorem everyValueConst_iff (ctx : Context) (properties : List PropertyNode) :
    everyValueConst ctx properties = .ok true ↔ ∀ p ∈ properties, valueConst ctx p = .ok true := by
  induction properties with
  | nil => simp [everyValueConst]
  | cons p rest ih =>
    rw [everyValueConst]
    cases hp : valueConst ctx p with
    | error e => simp [hp]
    | ok b =>
      cases b with
      | false => simp [hp]
      | true => simp [hp, ih]

theorem isConstObject_declarator_iff (ctx : Context) (hD : none ∉ ctx.moduleDependencies)
    (id : Pattern) (init : Expr) :
    isConstObject ctx (.declarator (.mk id (some init))) = .ok true ↔
      ∃ properties, init = .ObjectExpression properties ∧ properties ≠ [] ∧
        ∀ p ∈ properties, ∃ key value, p = .Property key value ∧ ConstValue ctx value := by
  rw [isConstObject_declarator]
  cases init with
  | ObjectExpression properties =>
    cases properties with
    | nil => simp [isConstObjectExpr]
    | cons p rest =>
      simp only [isConstObjectExpr, List.isEmpty_cons, Bool.false_eq_true,
        if_false, everyValueConst_iff, valueConst_iff ctx hD, Expr.ObjectExpression.injEq]
      constructor
      · intro h
        exact ⟨_, rfl, by simp, h⟩
      · rintro ⟨ps, rfl, -, h⟩
        exact h
  | _ => simp [isConstObjectExpr]

theorem literalValued_iff (value : Expr) :
    literalValued value = true ↔
      (IsLiteralNode value ∨
        ∃ operator argument, value = .UnaryExpression operator argument ∧
          IsLiteralNode argument) := by
  cases value with
  | UnaryExpression operator argument =>
    cases argument with
    | Literal v =>
      simp only [literalValued, true_iff]
      exact Or.inr ⟨_, _, rfl, ⟨_, rfl⟩⟩
    | _ => simp [literalValued, IsLiteralNode]
  | _ => simp [literalValued, IsLiteralNode]

theorem functionValued_iff (value : Expr) :
    functionValued value = true ↔ IsFunctionExpression value := by
  cases value <;> simp [functionValued, IsFunctionExpression]

theorem dependencyRooted_iff (D : List String) (value : Expr) :
    dependencyRooted D value = true ↔
      ∃ name, rootIdentifier value = some name ∧ some name ∈ D.map some := by
  simp only [dependencyRooted]
  cases rootIdentifier value with
  | none => simp
  | some name => simp

mutual
theorem constantObject_iff (D : List String) (r : Option String) (F : List (Option String)) :
    ∀ e : Expr, isConstObjectExpr ⟨D.map some, r, F⟩ e = .ok true ↔ constantObject D e = true
  | .ObjectExpression properties => by
    cases properties with
    | nil => simp [isConstObjectExpr, constantObject]
    | cons p rest =>
      simp only [isConstObjectExpr, constantObject, List.isEmpty_cons, Bool.false_eq_true,
        if_false, Bool.not_false, Bool.true_and]
      exact constantProperties_iff D r F (p :: rest)
  | .Identifier _ => by simp [isConstObjectExpr, constantObject]
  | .Literal _ => by simp [isConstObjectExpr, constantObject]
  | .UnaryExpression _ _ => by simp [isConstObjectExpr, constantObject]
  | .BinaryExpression _ _ _ => by simp [isConstObjectExpr, constantObject]
  | .FunctionExpression _ _ => by simp [isConstObjectExpr, constantObject]
  | .ArrayExpression _ => by simp [isConstObjectExpr, constantObject]
  | .MemberExpression _ _ => by simp [isConstObjectExpr, constantObject]
  | .CallExpression _ _ => by simp [isConstObjectExpr, constantObject]
  | .NewExpression _ _ => by simp [isConstObjectExpr, constantObject]
  | .Other _ => by simp [isConstObjectExpr, constantObject]
theorem constantProperties_iff (D : List String) (r : Option String)
    (F : List (Option String)) :
    ∀ properties : List PropertyNode,
      everyValueConst ⟨D.map some, r, F⟩ properties = .ok true ↔
        constantProperties D properties = true
  | [] => by simp [everyValueConst, constantProperties]
  | p :: rest => by
    rw [everyValueConst, constantProperties, Bool.and_eq_true,
      ← constantProperty_iff D r F p, ← constantProperties_iff D r F rest]
    cases hp : valueConst ⟨D.map some, r, F⟩ p with
    | error e => simp
    | ok b => cases b <;> simp
theorem constantProperty_iff (D : List String) (r : Option String) (F : List (Option String)) :
    ∀ p : PropertyNode,
      valueConst ⟨D.map some, r, F⟩ p = .ok true ↔ constantProperty D p = true
  | .Property key value => by
    rw [valueConst_iff ⟨D.map some, r, F⟩ (by simp)]
    simp only [PropertyNode.Property.injEq, ConstValue, constantProperty, Bool.or_eq_true,
      literalValued_iff, functionValued_iff, dependencyRooted_iff, isConstObject_expression,
      ← constantObject_iff D r F value]
    constructor
    · rintro ⟨k, v, ⟨-, rfl⟩, h⟩
      rcases h with h | h | h | h | h
      · exact Or.inl (Or.inl (Or.inl (Or.inl h)))
      · exact Or.inl (Or.inl (Or.inl (Or.inr h)))
      · exact Or.inl (Or.inl (Or.inr h))
      · exact Or.inl (Or.inr h)
      · exact Or.inr h
    · intro h
      refine ⟨key, value, ⟨rfl, rfl⟩, ?_⟩
      rcases h with ((((h | h) | h) | h) | h)
      · exact Or.inl h
      · exact Or.inr (Or.inl h)
      · exact Or.inr (Or.inr (Or.inl h))
      · exact Or.inr (Or.inr (Or.inr (Or.inl h)))
      · exact Or.inr (Or.inr (Or.inr (Or.inr h)))
  | .SpreadElement argument => by
    simp [valueConst, PropertyNode.value, isLiteral, getPropType, Except.bind, jsOr,
      constantProperty]
end

/-- C8 (counterexample): in
`define(function(){ Object.freeze(a); var x = {k: a}; })` the name `a` is
frozen, yet `x` is reported: the frozen set plays no part in the
constant-object rule. -/
theorem c8_frozen_value_reported :
    getFrozenObjects frozenValueModule = .ok [some "a"] ∧
    isConstObject ⟨[], none, [some "a"]⟩ (.declarator (.mk (.Identifier "x")
      (some (.ObjectExpression [keyValue "k" (.Identifier "a")])))) = .ok false ∧
    (Program Context.initial frozenValueModule).2 =
      .ok [⟨"x defined in module scope.", none⟩] :=
  ⟨rfl, rfl, rfl⟩

/-- C8 (amended): for the dependency names `D` of a module whose dependency
parameters are all plain identifiers, whatever the returned identifier and the
frozen names, `isConstObject` holds for a declarator's initializer exactly
when it is a constant object literal: a non-empty object literal every one of
whose properties is a `key: value` pair whose value is a literal, a unary
operator applied to a literal, a function expression, an identifier or
member-access chain rooted at an identifier named in `D`, or itself a
constant object literal by this same rule, at any depth.  So `{k: {j: foo()}}`
and `{k: {}}` are not constant, `{k: {j: dep.a, f: function(){}}, n: -1}` is
constant for the dependency `dep`, `define(["a"], function(a){ var x = {k: a}; })`
reports nothing and `define(function(){ var x = {k: {}}; })` reports `x`. -/
theorem c8_constant_object_rule (D : List String) (r : Option String)
    (F : List (Option String)) (id : Pattern) (init : Expr) :
    (isConstObject ⟨D.map some, r, F⟩ (.declarator (.mk id (some init))) = .ok true ↔
      constantObject D init = true) ∧
    isConstObject ⟨D.map some, r, F⟩ (.declarator (.mk id (some nestedCallObject))) =
      .ok false ∧
    isConstObject ⟨["dep"].map some, r, F⟩ (.declarator (.mk id (some nestedConstantObject))) =
      .ok true ∧
    (Program ⟨D.map some, r, F⟩ dependencyValueModule).2 = .ok [] ∧
    (Program ⟨D.map some, r, F⟩ nestedEmptyObjectModule).2 =
      .ok [⟨"x defined in module scope.", none⟩] := by
  refine ⟨?_, ?_, rfl, rfl, rfl⟩
  · rw [isConstObject_declarator]
    exact constantObject_iff D r F init
  · rw [isConstObject_declarator]
    cases h : isConstObjectExpr ⟨D.map some, r, F⟩ nestedCallObject with
    | error e =>
      exact absurd h (by
        simp [nestedCallObject, isConstObjectExpr, everyValueConst, valueConst, keyValue,
          PropertyNode.value, isLiteral, isFunction, isDep, getPropType, getPropName,
          getPropObject, argTypeOf, Except.bind, jsOr, Expr.type, Expr.name, Expr.object,
          Expr.argument, truthy, includesArray])
    | ok b =>
      cases b with
      | false => rfl
      | true =>
        have := (constantObject_iff D r F nestedCallObject).1 h
        simp [nestedCallObject, constantObject, constantProperties, constantProperty, keyValue,
          literalValued, functionValued, dependencyRooted, rootIdentifier] at this

/-! ## The frozen set -/

theorem filterFreezeStatements_append (before after : List Stmt) :
    filterFreezeStatements (before ++ after) =
      match filterFreezeStatements before with
      | .error e => .error e
      | .ok kept =>
        match filterFreezeStatements after with
        | .error e => .error e
        | .ok kept' => .ok (kept ++ kept') := by
  induction before with
  | nil =>
    simp only [List.nil_append, filterFreezeStatements, List.nil_append]
    cases filterFreezeStatements after <;> rfl
  | cons s rest ih =>
    have h1 : ∀ l, filterFreezeStatements (s :: l) =
        (match isFreezeStatement s with
        | .error e => .error e
        | .ok selected =>
          match filterFreezeStatements l with
          | .error e => .error e
          | .ok kept => .ok (if selected then s :: kept else kept)) := fun _ => rfl
    rw [List.cons_append, h1, h1, ih]
    cases isFreezeStatement s with
    | error e => rfl
    | ok selected =>
      cases filterFreezeStatements rest with
      | error e => rfl
      | ok kept =>
        cases filterFreezeStatements after with
        | error e => rfl
        | ok kept' => cases selected <;> rfl

theorem isFrozen_congr (dependencies : List (Option String)) (returned : Option String)
    (frozen frozen' : List (Option String)) (h : ∀ name, name ∈ frozen' ↔ name ∈ frozen)
    (node : VariableDeclarator) :
    isFrozen ⟨dependencies, returned, frozen'⟩ node = isFrozen ⟨dependencies, returned, frozen⟩ node := by
  simp only [isFrozen]
  congr 1
  funext name
  congr 1
  simp only [includesArray]
  rw [Bool.eq_iff_iff]
  simp [h]

/-! ## The handler on a recognised module -/

theorem program_of_module (root : ProgramNode) (h : isAmdModule root = .ok true) :
    ∃ arguments params body returned,
      root.body = [.ExpressionStatement (.CallExpression (.Identifier "define") arguments)] ∧
      arguments.getLast? = some (.FunctionExpression params body) ∧
      arguments.filter (fun a => a.type == "FunctionExpression") =
        [.FunctionExpression params body] ∧
      definitionBodyOf root = .ok body ∧
      getModuleDefinition root = .ok (some body) ∧
      getModuleDependencies root = .ok (params.map Pattern.name) ∧
      getModuleReturnStatement root = .ok returned ∧
      ∀ state, Program state root =
        match getFrozenObjects root with
        | .error e => (⟨params.map Pattern.name, returned, state.frozenObjects⟩, .error e)
        | .ok frozen =>
          (⟨params.map Pattern.name, returned, frozen⟩,
            (filterAllowed ⟨params.map Pattern.name, returned, frozen⟩
              (topLevelVarDeclarators body)).bind fun stateVars => .ok (stateVars.map report)) := by
  obtain ⟨arguments, params, body, hbody, hlast, hfun, hdef⟩ := module_parts root h
  obtain ⟨r, hr⟩ := getModuleReturnStatement_total root body hdef
  have hmd : getModuleDefinition root = .ok (some body) := by
    simp [getModuleDefinition, hfun, Except.bind, Expr.body]
  have hdeps : getModuleDependencies root = .ok (params.map Pattern.name) := by
    simp [getModuleDependencies, hfun, Except.bind, Expr.params]
  have hfilter : arguments.filter (fun a => a.type == "FunctionExpression") =
      [.FunctionExpression params body] := by
    have := hfun
    simp only [functionArguments, defineCallOf, hbody, read, Except.bind, List.getElem?_cons_zero,
      Stmt.expression, Expr.arguments, Option.getD_some, Except.ok.injEq] at this
    exact this
  refine ⟨arguments, params, body, r, hbody, hlast, hfilter, hdef, hmd, hdeps, hr, fun state => ?_⟩
  simp only [Program, h, hmd, hdeps, hr]
  cases getFrozenObjects root with
  | error e => rfl
  | ok frozen => simp only [getAllGlobalVars_eq, Except.bind]

theorem jsOr_ok (b : Bool) (x : Except TypeError Bool) :
    jsOr (.ok b) x = if b then .ok true else x := by
  cases b <;> rfl

theorem isAllowed_safeInitializer (ctx : Context) (id : Pattern) (init : Expr)
    (h : SafeInitializer init) : isAllowed ctx (.mk id (some init)) = .ok true := by
  rcases h with ⟨v, rfl⟩ | ⟨op, arg, rfl, ⟨v, rfl⟩⟩ | ⟨arguments, rfl⟩ | ⟨params, body, rfl⟩
  · rfl
  · rfl
  · simp only [isAllowed, VariableDeclarator.init, Option.isSome_some, jsAnd]
    have h1 : isLiteral (.declarator (.mk id (some (.NewExpression (.Identifier "RegExp") arguments))))
        = .ok false := rfl
    have h2 : isFunction (.declarator (.mk id (some (.NewExpression (.Identifier "RegExp") arguments))))
        = .ok false := rfl
    have h3 : isArrayWithValues (.mk id (some (.NewExpression (.Identifier "RegExp") arguments)))
        = .ok false := rfl
    have h4 : ∃ b, isReturnedObject ctx
        (.mk id (some (.NewExpression (.Identifier "RegExp") arguments))) = .ok b := ⟨_, rfl⟩
    have h5 : ∃ b, isFrozen ctx
        (.mk id (some (.NewExpression (.Identifier "RegExp") arguments))) = .ok b := ⟨_, rfl⟩
    have h6 : isReactCreate (.mk id (some (.NewExpression (.Identifier "RegExp") arguments)))
        = .ok false := rfl
    have h7 : isSantaType (.mk id (some (.NewExpression (.Identifier "RegExp") arguments)))
        = .ok false := rfl
    have h8 : ∃ b, isDep ctx
        (.declarator (.mk id (some (.NewExpression (.Identifier "RegExp") arguments)))) = .ok b :=
      ⟨_, rfl⟩
    have h9 : isRegex (.mk id (some (.NewExpression (.Identifier "RegExp") arguments)))
        = .ok true := rfl
    obtain ⟨b4, h4⟩ := h4
    obtain ⟨b5, h5⟩ := h5
    obtain ⟨b8, h8⟩ := h8
    rw [h1, h2, h3, h4, h5, h6, h7, h8, h9]
    cases isUpperCase (.mk id (some (.NewExpression (.Identifier "RegExp") arguments))) <;>
      cases b4 <;> cases b5 <;> cases b8 <;> rfl
  · rfl

theorem filterAllowed_all_allowed (ctx : Context) (vars : List VariableDeclarator)
    (h : ∀ d ∈ vars, isAllowed ctx d = .ok true) : filterAllowed ctx vars = .ok [] := by
  induction vars with
  | nil => rfl
  | cons node rest ih =>
    have h1 := h node (List.mem_cons_self _ _)
    have h2 := ih (fun d hd => h d (List.mem_cons_of_mem _ hd))
    simp [filterAllowed, h1, h2]

/-- C11: under every context and for every declared name, a declarator whose
initializer is a literal (a regular-expression literal included), a unary
operator applied to a literal, `new RegExp(...)` or a function expression is
classified safe; and on a recognised module all of whose top-level `var`
declarators have such initializers the handler reports no diagnostic: it
returns the empty sequence whenever `getFrozenObjects` returns, and reports
nothing when that call throws. -/
theorem c11_plain_initializers_are_safe :
    (∀ (ctx : Context) (id : Pattern) (init : Expr), SafeInitializer init →
      isAllowed ctx (.mk id (some init)) = .ok true ∧
      filterAllowed ctx [.mk id (some init)] = .ok []) ∧
    (∀ (state : Context) (root : ProgramNode), isAmdModule root = .ok true →
      (∀ body, definitionBodyOf root = .ok body → ∀ d ∈ topLevelVarDeclarators body,
        ∃ init, d = .mk d.id (some init) ∧ SafeInitializer init) →
      reported (Program state root).2 = [] ∧
      (∀ frozen, getFrozenObjects root = .ok frozen → (Program state root).2 = .ok [])) := by
  refine ⟨fun ctx id init h => ?_, fun state root hmodule hall => ?_⟩
  · have h1 := isAllowed_safeInitializer ctx id init h
    exact ⟨h1, filterAllowed_all_allowed ctx _ (by simpa using h1)⟩
  · obtain ⟨arguments, params, body, r, -, -, -, hdef, -, -, -, hprog⟩ :=
      program_of_module root hmodule
    have hsafe : ∀ ctx : Context, filterAllowed ctx (topLevelVarDeclarators body) = .ok [] := by
      intro ctx
      apply filterAllowed_all_allowed
      intro d hd
      obtain ⟨init, hd', hs⟩ := hall body hdef d hd
      rw [hd']
      exact isAllowed_safeInitializer ctx _ init hs
    rw [hprog state]
    cases hf : getFrozenObjects root with
    | error e => exact ⟨rfl, fun frozen h => by simp at h⟩
    | ok frozen =>
      refine ⟨?_, fun _ _ => ?_⟩ <;> simp [hsafe, Except.bind, reported]

/-- C11 (witness): the declarators of
`define(function(){ var a = 1, re = /x/g, n = -1; var r = new RegExp("x"); var f = function(){}; })`
are all safe and the module yields no diagnostic. -/
theorem c11_plain_initializers_are_safe_witness :
    SafeInitializer (.Literal (.regex "x" "g")) ∧
    isAllowed Context.initial (.mk (.Identifier "re") (some (.Literal (.regex "x" "g")))) =
      .ok true ∧
    isAmdModule plainlySafeModule = .ok true ∧
    getFrozenObjects plainlySafeModule = .ok [] ∧
    (Program Context.initial plainlySafeModule).2 = .ok [] := by
  have hlit : SafeInitializer (.Literal (.regex "x" "g")) := Or.inl ⟨_, rfl⟩
  refine ⟨hlit, (c11_plain_initializers_are_safe.1 _ _ _ hlit).1, rfl, rfl,
    (c11_plain_initializers_are_safe.2 Context.initial plainlySafeModule rfl ?_).2 [] rfl⟩
  intro body hbody d hd
  have hb : body = [.VariableDeclaration "var"
      [.mk (.Identifier "a") (some (.Literal (.number "1"))),
       .mk (.Identifier "re") (some (.Literal (.regex "x" "g"))),
       .mk (.Identifier "n") (some (.UnaryExpression "-" (.Literal (.number "1"))))],
     varStatement "r" (some (.NewExpression (.Identifier "RegExp") [.Literal (.string "x")])),
     varStatement "f" (some (.FunctionExpression [] []))] := by
    have h : definitionBodyOf plainlySafeModule = .ok _ := rfl
    rw [h] at hbody
    exact (Except.ok.inj hbody).symm
  subst hb
  simp only [topLevelVarDeclarators, varStatement, if_true, List.cons_append, List.nil_append,
    List.append_nil, List.mem_cons, List.mem_singleton, List.not_mem_nil, or_false] at hd
  rcases hd with rfl | rfl | rfl | rfl | rfl
  · exact ⟨_, rfl, Or.inl ⟨_, rfl⟩⟩
  · exact ⟨_, rfl, Or.inl ⟨_, rfl⟩⟩
  · exact ⟨_, rfl, Or.inr (Or.inl ⟨_, _, rfl, ⟨_, rfl⟩⟩)⟩
  · exact ⟨_, rfl, Or.inr (Or.inr (Or.inl ⟨_, rfl⟩))⟩
  · exact ⟨_, rfl, Or.inr (Or.inr (Or.inr ⟨_, _, rfl⟩))⟩

/-- C13: the result of the handler on a root, the diagnostics in their order
or the exception, does not depend on the values the closure variables hold
when it is called; in particular a second call on the same root, made with
the closure variables the first call left, gives the same result. -/
theorem c13_result_independent_of_state (state₁ state₂ : Context) (root : ProgramNode) :
    (Program state₁ root).2 = (Program state₂ root).2 ∧
    (Program (Program state₁ root).1 root).2 = (Program state₁ root).2 := by
  have key : ∀ s₁ s₂ : Context, (Program s₁ root).2 = (Program s₂ root).2 := by
    intro s₁ s₂
    simp only [Program]
    cases isAmdModule root with
    | error e => rfl
    | ok b =>
      cases b with
      | false => rfl
      | true =>
        cases getModuleDefinition root with
        | error e => rfl
        | ok moduleDefinition =>
          cases getModuleDependencies root with
          | error e => rfl
          | ok dependencies =>
            cases getModuleReturnStatement root with
            | error e => rfl
            | ok returned =>
              cases getFrozenObjects root with
              | error e => rfl
              | ok frozen => rfl
  exact ⟨key _ _, key _ _⟩


/-! ## Freezing order -/

theorem filterFreezeStatements_ok_iff (body kept : List Stmt) :
    filterFreezeStatements body = .ok kept ↔
      (∀ s ∈ body, ∃ b, isFreezeStatement s = .ok b) ∧
      kept = body.filter (fun s => decide (isFreezeStatement s = .ok true)) := by
  induction body generalizing kept with
  | nil => simp [filterFreezeStatements, eq_comm]
  | cons s rest ih =>
    rw [filterFreezeStatements]
    cases hs : isFreezeStatement s with
    | error e =>
      simp only [List.mem_cons, forall_eq_or_imp, hs]
      constructor
      · intro h
        cases h
      · rintro ⟨⟨⟨b, hb⟩, -⟩, -⟩
        cases hb
    | ok b =>
      cases hr : filterFreezeStatements rest with
      | error e =>
        have hno : ¬ ∀ x ∈ rest, ∃ b, isFreezeStatement x = .ok b := by
          intro hall
          have := (ih (rest.filter fun s => decide (isFreezeStatement s = .ok true))).2
            ⟨hall, rfl⟩
          rw [hr] at this
          cases this
        simp only [List.mem_cons, forall_eq_or_imp]
        constructor
        · intro h
          cases h
        · rintro ⟨⟨-, hall⟩, -⟩
          exact absurd hall hno
      | ok kept' =>
        obtain ⟨hall, hkept⟩ := (ih kept').1 hr
        cases b with
        | false =>
          simp only [Bool.false_eq_true, if_false, Except.ok.injEq, List.mem_cons,
            forall_eq_or_imp, hs, List.filter_cons]
          constructor
          · rintro rfl
            exact ⟨⟨⟨_, rfl⟩, hall⟩, by simpa using hkept⟩
          · rintro ⟨-, h⟩
            rw [h, hkept]
            simp
        | true =>
          simp only [if_true, Except.ok.injEq, List.mem_cons, forall_eq_or_imp, hs,
            List.filter_cons]
          constructor
          · rintro rfl
            exact ⟨⟨⟨_, rfl⟩, hall⟩, by simpa using hkept⟩
          · rintro ⟨-, h⟩
            rw [h, hkept]
            simp

theorem filterFreezeStatements_perm (body body' kept : List Stmt) (hperm : body'.Perm body)
    (h : filterFreezeStatements body = .ok kept) :
    ∃ kept', filterFreezeStatements body' = .ok kept' ∧ kept'.Perm kept := by
  obtain ⟨hall, hkept⟩ := (filterFreezeStatements_ok_iff body kept).1 h
  refine ⟨body'.filter (fun s => decide (isFreezeStatement s = .ok true)), ?_, ?_⟩
  · exact (filterFreezeStatements_ok_iff body' _).2
      ⟨fun s hs => hall s (hperm.mem_iff.1 hs), rfl⟩
  · rw [hkept]
    exact hperm.filter _

/-- C10 (counterexample): in `define(function(){ var y = x; Object.freeze(x); })`
the freeze call stands after the declarator, `x` is neither a dependency nor
returned and `y` is lower-case, yet `x` is in the frozen list and `y` is not
reported. -/
theorem c10_late_freeze_still_exempts :
    getFrozenObjects freezeLastModule = .ok [some "x"] ∧
    isUpperCase (.mk (.Identifier "y") (some (.Identifier "x"))) = false ∧
    (Program Context.initial freezeLastModule).2 = .ok [] :=
  ⟨rfl, by decide, rfl⟩

/-- C10 (amended): the position of a freeze call in the factory body is
irrelevant.  When `getFrozenObjects` returns the list `frozen` for a module
with factory body `body`, a name is in `frozen` exactly when some statement
of `body`, wherever it stands, is selected as a freeze statement and yields
that name; on a recognised module the handler classifies every top-level
declarator under the one context holding `frozen`; and for a module whose
factory body is any permutation of `body`, `getFrozenObjects` returns a
permutation of `frozen`, under which `isFrozen` decides every declarator
alike.  `Object.freeze(x); var y = x`, `var y = x; Object.freeze(x)` and
`Object.freeze(x); return q; var y = x` all leave `y` unreported. -/
theorem c10_freeze_position_irrelevant (root root' : ProgramNode) (body body' : List Stmt)
    (frozen : List (Option String))
    (hbody : definitionBodyOf root = .ok body)
    (hbody' : definitionBodyOf root' = .ok body')
    (hperm : body'.Perm body)
    (hfrozen : getFrozenObjects root = .ok frozen) :
    (∀ name, name ∈ frozen ↔
      ∃ s ∈ body, isFreezeStatement s = .ok true ∧ frozenName s = name) ∧
    (isAmdModule root = .ok true → ∃ dependencies returned, ∀ state,
      (Program state root).2 =
        (filterAllowed ⟨dependencies, returned, frozen⟩ (topLevelVarDeclarators body)).bind
          fun kept => .ok (kept.map report)) ∧
    (∃ frozen', getFrozenObjects root' = .ok frozen' ∧ frozen'.Perm frozen ∧
      (∀ name, name ∈ frozen' ↔ name ∈ frozen) ∧
      ∀ dependencies returned node,
        isFrozen ⟨dependencies, returned, frozen'⟩ node =
          isFrozen ⟨dependencies, returned, frozen⟩ node) ∧
    (Program Context.initial freezeFirstModule).2 = .ok [] ∧
    (Program Context.initial freezeLastModule).2 = .ok [] ∧
    (Program Context.initial freezeReturnModule).2 = .ok [] := by
  refine ⟨?_, ?_, ?_, rfl, rfl, rfl⟩
  · simp only [getFrozenObjects, hbody, Except.bind] at hfrozen
    cases hk : filterFreezeStatements body with
    | error e => simp [hk] at hfrozen
    | ok kept =>
      simp only [hk, Except.ok.injEq] at hfrozen
      subst hfrozen
      obtain ⟨-, hkept⟩ := (filterFreezeStatements_ok_iff body kept).1 hk
      intro name
      rw [hkept]
      simp only [List.mem_map, List.mem_filter, decide_eq_true_eq]
      constructor
      · rintro ⟨s, ⟨hs, hsel⟩, hn⟩
        exact ⟨s, hs, hsel, hn⟩
      · rintro ⟨s, hs, hsel, hn⟩
        exact ⟨s, ⟨hs, hsel⟩, hn⟩
  · intro hmodule
    obtain ⟨arguments, params, body₀, returned, -, -, -, hdef, -, -, -, hprog⟩ :=
      program_of_module root hmodule
    have hb : body₀ = body := by
      rw [hbody] at hdef
      exact (Except.ok.inj hdef).symm
    subst hb
    refine ⟨params.map Pattern.name, returned, fun state => ?_⟩
    rw [hprog state, hfrozen]
  · simp only [getFrozenObjects, hbody, hbody', Except.bind] at hfrozen ⊢
    cases hk : filterFreezeStatements body with
    | error e => simp [hk] at hfrozen
    | ok kept =>
      simp only [hk, Except.ok.injEq] at hfrozen
      subst hfrozen
      obtain ⟨kept', hk', hp⟩ := filterFreezeStatements_perm body body' kept hperm hk
      have hpm : (kept'.map frozenName).Perm (kept.map frozenName) := hp.map _
      have hmem : ∀ name, name ∈ kept'.map frozenName ↔ name ∈ kept.map frozenName :=
        fun name => hpm.mem_iff
      rw [hk']
      exact ⟨_, rfl, hpm, hmem, fun d r node => isFrozen_congr d r _ _ hmem node⟩

/-- C10 (witness): the two orders of `Object.freeze(x)` and `var y = x`. -/
theorem c10_freeze_position_irrelevant_witness :
    definitionBodyOf freezeFirstModule =
      .ok [freezeStatement (.Identifier "x"), varStatement "y" (some (.Identifier "x"))] ∧
    definitionBodyOf freezeLastModule =
      .ok [varStatement "y" (some (.Identifier "x")), freezeStatement (.Identifier "x")] ∧
    [varStatement "y" (some (.Identifier "x")), freezeStatement (.Identifier "x")].Perm
      [freezeStatement (.Identifier "x"), varStatement "y" (some (.Identifier "x"))] ∧
    getFrozenObjects freezeFirstModule = .ok [some "x"] ∧
    (∃ frozen', getFrozenObjects freezeLastModule = .ok frozen' ∧ frozen'.Perm [some "x"] ∧
      (∀ name, name ∈ frozen' ↔ name ∈ [some "x"]) ∧
      ∀ dependencies returned node,
        isFrozen ⟨dependencies, returned, frozen'⟩ node =
          isFrozen ⟨dependencies, returned, [some "x"]⟩ node) :=
  ⟨rfl, rfl, List.Perm.swap _ _ _, rfl,
    (c10_freeze_position_irrelevant freezeFirstModule freezeLastModule
      [freezeStatement (.Identifier "x"), varStatement "y" (some (.Identifier "x"))]
      [varStatement "y" (some (.Identifier "x")), freezeStatement (.Identifier "x")]
      [some "x"] rfl rfl (List.Perm.swap _ _ _) rfl).2.2.1⟩

/-! ## Claims on the context extractors -/

/-- C12 (failing input): on `define(function(){ var y; })`, a recognised
module without parameters, return statement or freeze call,
`getModuleDependencies` returns the empty list and `getModuleReturnStatement`
no name, but `getFrozenObjects` throws on the declaration without
initializer instead of returning the empty list. -/
theorem c12_frozen_extractor_throws :
    isAmdModule bareDeclarationModule = .ok true ∧
    getModuleDependencies bareDeclarationModule = .ok [] ∧
    getModuleReturnStatement bareDeclarationModule = .ok none ∧
    getFrozenObjects bareDeclarationModule = .error (.cannotReadProperty "type") :=
  ⟨rfl, rfl, rfl, rfl⟩

theorem find_return_eq (body : List Stmt) :
    (match body.find? (fun s => s.type == "ReturnStatement") with
      | none => (.ok none : Except TypeError (Option String))
      | some returnNode =>
        match returnNode.argument with
        | none => .ok none
        | some argument => .ok argument.name) = .ok (firstReturnName body) := by
  induction body with
  | nil => rfl
  | cons s rest ih =>
    cases s with
    | ReturnStatement argument =>
      cases argument with
      | none => rfl
      | some a => cases a <;> rfl
    | Other k =>
      have hk : (k.type == "ReturnStatement") = false := by cases k <;> decide
      simp only [List.find?_cons, Stmt.type, hk, firstReturnName]
      exact ih
    | _ =>
      simp only [List.find?_cons, Stmt.type, firstReturnName]
      exact ih

/-- C14: on a recognised module `getModuleReturnStatement` returns, and what
it returns is decided by the first return statement among the immediate
statements of the factory body alone: that statement's identifier name when
its argument is a bare identifier, none when there is no such statement,
when it is a bare `return;` or when its argument is not an identifier. -/
theorem c14_first_return_decides (root : ProgramNode) (hmodule : isAmdModule root = .ok true) :
    ∃ arguments params body,
      root.body = [.ExpressionStatement (.CallExpression (.Identifier "define") arguments)] ∧
      arguments.getLast? = some (.FunctionExpression params body) ∧
      getModuleReturnStatement root = .ok (firstReturnName body) := by
  obtain ⟨arguments, params, body, hbody, hlast, -, hdef⟩ := module_parts root hmodule
  refine ⟨arguments, params, body, hbody, hlast, ?_⟩
  simp only [getModuleReturnStatement, hdef, Except.bind]
  exact find_return_eq body

/-- C14 (witness): `define(function(){ var a = 1; return; return x; })`
yields no name, and so do a first return of a literal followed by
`return x` and a `return x` nested in a block; `define("id", ["a", "b"],
function(a, b){ return a; })` yields `a`. -/
theorem c14_first_return_decides_witness :
    isAmdModule bareReturnModule = .ok true ∧
    (∃ arguments params body,
      bareReturnModule.body =
        [.ExpressionStatement (.CallExpression (.Identifier "define") arguments)] ∧
      arguments.getLast? = some (.FunctionExpression params body) ∧
      getModuleReturnStatement bareReturnModule = .ok (firstReturnName body)) ∧
    getModuleReturnStatement bareReturnModule = .ok none ∧
    getModuleReturnStatement laterReturnModule = .ok none ∧
    getModuleReturnStatement nestedReturnModule = .ok none ∧
    getModuleReturnStatement namedModule = .ok (some "a") :=
  ⟨rfl, c14_first_return_decides bareReturnModule rfl, rfl, rfl, rfl, rfl⟩

/-- C16: on a recognised module the `define` call has exactly one argument
that is a function expression, and it is the last one; `getModuleDefinition`
returns the block of that function and `getModuleDependencies` the `name` of
each of its parameters, in parameter order. -/
theorem c16_factory_is_last_argument (root : ProgramNode) (hmodule : isAmdModule root = .ok true) :
    ∃ arguments params body,
      root.body = [.ExpressionStatement (.CallExpression (.Identifier "define") arguments)] ∧
      arguments.getLast? = some (.FunctionExpression params body) ∧
      arguments.filter (fun a => a.type == "FunctionExpression") =
        [.FunctionExpression params body] ∧
      getModuleDefinition root = .ok (some body) ∧
      getModuleDependencies root = .ok (params.map Pattern.name) := by
  obtain ⟨arguments, params, body, -, hbody, hlast, hfilter, -, hmd, hdeps, -, -⟩ :=
    program_of_module root hmodule
  exact ⟨arguments, params, body, hbody, hlast, hfilter, hmd, hdeps⟩

/-- C16 (witness): in `define("id", ["a", "b"], function(a, b){ return a; })`
the factory is the third argument, its block is the module definition and
the dependencies are `a`, `b`. -/
theorem c16_factory_is_last_argument_witness :
    isAmdModule namedModule = .ok true ∧
    (∃ arguments params body,
      namedModule.body =
        [.ExpressionStatement (.CallExpression (.Identifier "define") arguments)] ∧
      arguments.getLast? = some (.FunctionExpression params body) ∧
      arguments.filter (fun a => a.type == "FunctionExpression") =
        [.FunctionExpression params body] ∧
      getModuleDefinition namedModule = .ok (some body) ∧
      getModuleDependencies namedModule = .ok (params.map Pattern.name)) ∧
    getModuleDefinition namedModule = .ok (some [returnStatement "a"]) ∧
    getModuleDependencies namedModule = .ok [some "a", some "b"] :=
  ⟨rfl, c16_factory_is_last_argument namedModule rfl, rfl, rfl⟩


theorem isCallToFreeze_eq (init : Expr) : isCallToFreeze (some init) = .ok (freezeCall init) := by
  cases init with
  | CallExpression callee arguments =>
    cases callee with
    | MemberExpression object property => rfl
    | _ => rfl
  | Other k =>
    have hk : (k.type != "CallExpression") = true := by cases k <;> decide
    simp [isCallToFreeze, read, Except.bind, Expr.type, hk, freezeCall]
  | _ => rfl

theorem freeze_statement_entry (statement : Stmt) (h : FreezeOrInitialised statement) :
    ∃ selected, isFreezeStatement statement = .ok selected ∧
      (if selected then [frozenName statement] else []) = frozenNamesFirst statement := by
  rcases h with ⟨object, property, name, rest, rfl, hp, hn⟩ | ⟨id, init, declarations, rfl, -⟩
  · refine ⟨true, ?_, ?_⟩
    · simp [isFreezeStatement, jsOr, jsAnd, Stmt.type, Stmt.expression, isCallToFreeze_eq,
        freezeCall, hp]
    · have hname : (Expr.Identifier name).name = some name := rfl
      simp [frozenName, frozenNamesFirst, freezeCall, hp, Stmt.expression, Expr.arguments,
        hname, truthy, hn]
  · refine ⟨freezeCall init, ?_, ?_⟩
    · simp [isFreezeStatement, jsOr, jsAnd, Stmt.type, Stmt.declarations, read, Except.bind,
        VariableDeclarator.init, isCallToFreeze_eq]
    · cases hf : freezeCall init <;>
        simp [frozenName, frozenNamesFirst, hf, Stmt.expression, Stmt.declarations, truthy,
          VariableDeclarator.id]

theorem frozen_of_body (body : List Stmt) (h : ∀ s ∈ body, FreezeOrInitialised s) :
    ∃ statements, filterFreezeStatements body = .ok statements ∧
      statements.map frozenName = (body.map frozenNamesFirst).flatten := by
  induction body with
  | nil => exact ⟨[], rfl, rfl⟩
  | cons s rest ih =>
    obtain ⟨kept, hk, hmap⟩ := ih (fun x hx => h x (List.mem_cons_of_mem _ hx))
    obtain ⟨selected, hs, hentry⟩ := freeze_statement_entry s (h s (List.mem_cons_self _ _))
    refine ⟨if selected then s :: kept else kept, ?_, ?_⟩
    · simp [filterFreezeStatements, hs, hk]
    · cases selected
      · simp only [Bool.false_eq_true, if_false] at hentry ⊢
        simp [← hentry, hmap]
      · simp only [if_true] at hentry ⊢
        simp [← hentry, hmap]

/-- C15 (counterexample): in
`define(function(){ Object.freeze(x); var a = 1, b = Object.freeze({});
var c = Object.freeze({}), d = 2; })`
the freeze call initialises the second declarator `b`, yet the frozen list is
`x`, `c`: `b` is not in it. -/
theorem c15_second_declarator_not_frozen :
    isAmdModule secondDeclaratorModule = .ok true ∧
    getFrozenObjects secondDeclaratorModule = .ok [some "x", some "c"] ∧
    (definitionBodyOf secondDeclaratorModule).map (fun body =>
      (body.map frozenNamesStated).flatten) = .ok [some "x", some "b", some "c"] :=
  ⟨rfl, rfl, rfl⟩

/-- C15 (amended): when every top-level statement of the factory body is a
freeze-call expression statement on an identifier or a `var` declaration
whose declarators all have initializers, `getFrozenObjects` returns, in
statement order, the first argument's name for each freeze-call statement and
the first declarator's name for each declaration whose first declarator is
initialised by a freeze call, and nothing else: a freeze call initialising a
later declarator adds no name. -/
theorem c15_frozen_names_first_declarator (root : ProgramNode) (body : List Stmt)
    (hbody : definitionBodyOf root = .ok body) (hshape : ∀ s ∈ body, FreezeOrInitialised s) :
    getFrozenObjects root = .ok (body.map frozenNamesFirst).flatten := by
  obtain ⟨statements, hs, hmap⟩ := frozen_of_body body hshape
  simp [getFrozenObjects, hbody, hs, Except.bind, hmap]

/-- C15 (witness): the module of the counterexample has a body of the shape
required, and its frozen list is `x`, `c`. -/
theorem c15_frozen_names_first_declarator_witness :
    definitionBodyOf secondDeclaratorModule = .ok secondDeclaratorBody ∧
    (∀ s ∈ secondDeclaratorBody, FreezeOrInitialised s) ∧
    getFrozenObjects secondDeclaratorModule = .ok [some "x", some "c"] := by
  have hshape : ∀ s ∈ secondDeclaratorBody, FreezeOrInitialised s := by
    intro s hs
    simp only [secondDeclaratorBody, List.mem_cons, List.mem_singleton, List.not_mem_nil,
      or_false] at hs
    rcases hs with rfl | rfl | rfl
    · exact Or.inl ⟨_, _, "x", [], rfl, rfl, by decide⟩
    · refine Or.inr ⟨_, _, _, rfl, ?_⟩
      intro d hd
      simp only [List.mem_singleton] at hd
      subst hd
      exact ⟨_, rfl⟩
    · refine Or.inr ⟨_, _, _, rfl, ?_⟩
      intro d hd
      simp only [List.mem_singleton] at hd
      subst hd
      exact ⟨_, rfl⟩
  exact ⟨rfl, hshape,
    c15_frozen_names_first_declarator secondDeclaratorModule secondDeclaratorBody rfl hshape⟩


/-! ## Claims on single rules -/

/-- C17 (failing input): in
`define(function(){ var list = []; return undefined; })` the declarator
`list` is initialised with the empty array literal, its name is not all-caps
and not frozen, yet it is not reported: `isReturnedObject` looks the missing
name up in the returned identifier `undefined` and finds it.  Without the
return statement the declarator is reported, and a non-empty array literal
satisfies `isArrayWithValues`. -/
theorem c17_empty_array_not_reported (state : Context) :
    isArrayWithValues (.mk (.Identifier "list") (some (.ArrayExpression []))) = .ok false ∧
    isUpperCase (.mk (.Identifier "list") (some (.ArrayExpression []))) = false ∧
    getFrozenObjects emptyArrayModule = .ok [] ∧
    isReturnedObject ⟨[], some "undefined", []⟩
      (.mk (.Identifier "list") (some (.ArrayExpression []))) = .ok true ∧
    (Program state emptyArrayModule).2 = .ok [] ∧
    (Program state emptyArrayOnlyModule).2 = .ok [⟨"list defined in module scope.", none⟩] ∧
    isArrayWithValues
      (.mk (.Identifier "list") (some (.ArrayExpression [some (.Literal (.number "1"))]))) =
        .ok true :=
  ⟨rfl, by decide, rfl, rfl, rfl, rfl, rfl⟩

/-- C19 (failing input): `isSantaType` holds for `new applyFetch()` and
`isReactCreate` for `new React.createClass({})`, whose initializers are `new`
expressions, not calls; `define(function(){ var x = new applyFetch(); })` and
`define(function(){ var c = new React.createClass({}); })` yield no
diagnostic, as `define(function(){ var x = applyFetch(); })` does. -/
theorem c19_new_expression_passes_call_rules (state : Context) :
    isSantaType (.mk (.Identifier "x") (some (.NewExpression (.Identifier "applyFetch") []))) =
      .ok true ∧
    isReactCreate (.mk (.Identifier "c") (some (.NewExpression
      (.MemberExpression (.Identifier "React") (.Identifier "createClass"))
      [.ObjectExpression []]))) = .ok true ∧
    (Program state newApplyFetchModule).2 = .ok [] ∧
    (Program state newCreateClassModule).2 = .ok [] ∧
    (Program state applyFetchModule).2 = .ok [] :=
  ⟨rfl, rfl, rfl, rfl, rfl⟩


/-! ## The all-caps rule -/

theorem upperCaseOf_ne_nil (c : Nat) : upperCaseOf c ≠ [] := by
  have hall : upperCaseSpecial.all (fun e => !e.2.isEmpty) = true := by decide
  simp only [upperCaseOf]
  split
  · rename_i e he
    have hmem := List.mem_of_find?_eq_some he
    have := List.all_eq_true.1 hall e hmem
    intro h
    simp [h] at this
  · split <;> simp

theorem upperCaseChar_ne_nil (c : Char) : upperCaseChar c ≠ [] := by
  simp [upperCaseChar, upperCaseOf_ne_nil]

theorem length_le_flatten_upperCase (l : List Char) :
    l.length ≤ (l.map upperCaseChar).flatten.length := by
  induction l with
  | nil => simp
  | cons a rest ih =>
    have ha : 1 ≤ (upperCaseChar a).length :=
      List.length_pos.2 (upperCaseChar_ne_nil a)
    simp only [List.map_cons, List.flatten_cons, List.length_append, List.length_cons]
    omega

theorem upperCase_fixed (l : List Char) (h : (l.map upperCaseChar).flatten = l) :
    ∀ c ∈ l, upperCaseChar c = [c] := by
  induction l with
  | nil => simp
  | cons a rest ih =>
    simp only [List.map_cons, List.flatten_cons] at h
    have hlen := congrArg List.length h
    simp only [List.length_append, List.length_cons] at hlen
    have hrest := length_le_flatten_upperCase rest
    have ha : 1 ≤ (upperCaseChar a).length :=
      List.length_pos.2 (upperCaseChar_ne_nil a)
    have hone : (upperCaseChar a).length = 1 := by omega
    obtain ⟨x, hx⟩ := List.length_eq_one.1 hone
    rw [hx] at h
    simp only [List.singleton_append, List.cons.injEq] at h
    intro c hc
    rcases List.mem_cons.1 hc with rfl | hc
    · rw [hx, h.1]
    · exact ih h.2 c hc

theorem upperCaseChar_ne_of_isLower (c : Char) (h : c.isLower = true) : upperCaseChar c ≠ [c] := by
  have hrange : 97 ≤ c.toNat ∧ c.toNat ≤ 122 := by
    simp only [Char.isLower, Bool.and_eq_true, decide_eq_true_eq] at h
    exact ⟨h.1, h.2⟩
  have hc : c = Char.ofNat c.toNat := (Char.ofNat_toNat c).symm
  have hall : ∀ k : Fin 26,
      upperCaseChar (Char.ofNat (97 + k.val)) ≠ [Char.ofNat (97 + k.val)] := by
    decide
  have hk := hall ⟨c.toNat - 97, by omega⟩
  have he : 97 + (c.toNat - 97) = c.toNat := by omega
  simp only [he] at hk
  rw [← hc] at hk
  exact hk

theorem isUpperCase_iff (id : Pattern) (init : Option Expr) :
    isUpperCase (.mk id init) = true ↔
      ∃ name, id.name = some name ∧ name ≠ "" ∧ name = toUpperCase name := by
  simp only [isUpperCase, VariableDeclarator.id]
  cases id.name with
  | none => simp [truthy]
  | some name => simp [truthy]

theorem isArrayWithValues_total (id : Pattern) (init : Expr) :
    ∃ b, isArrayWithValues (.mk id (some init)) = .ok b := by
  simp only [isArrayWithValues, getPropType, Except.bind, VariableDeclarator.init, read]
  split
  · exact ⟨_, rfl⟩
  · split <;> exact ⟨_, rfl⟩

theorem isAllowed_of_isUpperCase (ctx : Context) (id : Pattern) (init : Expr)
    (h : isUpperCase (.mk id (some init)) = true) :
    isAllowed ctx (.mk id (some init)) = .ok true := by
  obtain ⟨b3, h3⟩ := isArrayWithValues_total id init
  have h1 : ∃ b, isLiteral (.declarator (.mk id (some init))) = .ok b := ⟨_, rfl⟩
  have h2 : ∃ b, isFunction (.declarator (.mk id (some init))) = .ok b := ⟨_, rfl⟩
  obtain ⟨b1, h1⟩ := h1
  obtain ⟨b2, h2⟩ := h2
  simp only [isAllowed, VariableDeclarator.init, Option.isSome_some, jsAnd, h1, h2, h3, h]
  cases b1 <;> cases b2 <;> cases b3 <;> rfl

/-- C18 (counterexample): the letter `ĸ` (U+0138) is a lower-case letter
without an upper-case form, so the name `ĸ` equals its own upper-cased form:
`isUpperCase` holds for `var ĸ = {}` and
`define(function(){ var ĸ = {}; })` yields no diagnostic. -/
theorem c18_lower_case_kra_is_exempted :
    isLowerCaseLetter (Char.ofNat 0x138) = true ∧
    Char.ofNat 0x138 ∈ "ĸ".data ∧
    isUpperCase (.mk (.Identifier "ĸ") (some (.ObjectExpression []))) = true ∧
    (Program Context.initial kraModule).2 = .ok [] := by
  refine ⟨by decide, by decide, by decide, rfl⟩

/-- C18 (amended): `isUpperCase` holds exactly when the declarator has a name
that is non-empty and equal to its own upper-cased form; a declarator with
such a name and an initializer of any kind is classified safe under every
context; a name containing a character whose upper-case form differs from it,
as that of every letter `a`–`z` does, never satisfies the rule; and a
declarator without initializer is unsafe whatever its name.  So
`define(function(){ var é = {}; })` reports `é`. -/
theorem c18_all_caps_rule :
    (∀ (id : Pattern) (init : Option Expr), isUpperCase (.mk id init) = true ↔
      ∃ name, id.name = some name ∧ name ≠ "" ∧ name = toUpperCase name) ∧
    (∀ (ctx : Context) (id : Pattern) (init : Expr), isUpperCase (.mk id (some init)) = true →
      isAllowed ctx (.mk id (some init)) = .ok true ∧
      filterAllowed ctx [.mk id (some init)] = .ok []) ∧
    (∀ (id : Pattern) (init : Option Expr) (name : String) (c : Char), id.name = some name →
      c ∈ name.data → upperCaseChar c ≠ [c] → isUpperCase (.mk id init) = false) ∧
    (∀ c : Char, c.isLower = true → upperCaseChar c ≠ [c]) ∧
    (∀ (ctx : Context) (id : Pattern), isAllowed ctx (.mk id none) = .ok false ∧
      filterAllowed ctx [.mk id none] = .ok [.mk id none]) ∧
    (Program Context.initial eAcuteModule).2 = .ok [⟨"é defined in module scope.", none⟩] := by
  refine ⟨isUpperCase_iff, fun ctx id init h => ?_, fun id init name c hid hc hl => ?_,
    upperCaseChar_ne_of_isLower, fun ctx id => ⟨rfl, rfl⟩, rfl⟩
  · have h1 := isAllowed_of_isUpperCase ctx id init h
    exact ⟨h1, filterAllowed_all_allowed ctx _ (by simpa using h1)⟩
  · cases hu : isUpperCase (.mk id init) with
    | false => rfl
    | true =>
      obtain ⟨name', hname, -, heq⟩ := (isUpperCase_iff id init).1 hu
      rw [hid] at hname
      cases hname
      have hdata : (name.data.map upperCaseChar).flatten = name.data := by
        have := congrArg String.data heq
        simpa [toUpperCase] using this.symm
      exact absurd (upperCase_fixed _ hdata c hc) hl

/-- C18 (witness): `MAX_SIZE` satisfies the rule and `var MAX_SIZE = {}` is
safe; `maxSize`, which contains the letter `m`, does not. -/
theorem c18_all_caps_rule_witness :
    isUpperCase (.mk (.Identifier "MAX_SIZE") (some (.ObjectExpression []))) = true ∧
    isAllowed Context.initial (.mk (.Identifier "MAX_SIZE") (some (.ObjectExpression []))) =
      .ok true ∧
    upperCaseChar (Char.ofNat 109) ≠ [Char.ofNat 109] ∧
    isUpperCase (.mk (.Identifier "maxSize") (some (.ObjectExpression []))) = false ∧
    isAllowed Context.initial (.mk (.Identifier "MAX_SIZE") none) = .ok false := by
  have hu : isUpperCase (.mk (.Identifier "MAX_SIZE") (some (.ObjectExpression []))) = true := by
    decide
  have hm : upperCaseChar (Char.ofNat 109) ≠ [Char.ofNat 109] :=
    c18_all_caps_rule.2.2.2.1 (Char.ofNat 109) (by decide)
  exact ⟨hu, (c18_all_caps_rule.2.1 Context.initial _ _ hu).1, hm,
    c18_all_caps_rule.2.2.1 (.Identifier "maxSize") _ "maxSize" (Char.ofNat 109) rfl
      (by decide) hm,
    (c18_all_caps_rule.2.2.2.2.1 Context.initial (.Identifier "MAX_SIZE")).1⟩

/-! ## Monotonicity in the context -/

theorem Stays.refl (a : Except TypeError Bool) : Stays a a := by
  intro v h
  cases v
  · exact Or.inr ⟨rfl, h⟩
  · exact Or.inl h

theorem jsOr_mono {a b ta tb : Except TypeError Bool} (hs : Stays a b)
    (ht : ta = .ok true → tb = .ok true) : jsOr a ta = .ok true → jsOr b tb = .ok true := by
  intro h
  cases a with
  | error e => simp [jsOr] at h
  | ok v =>
    cases v with
    | true =>
      rcases hs true rfl with hb | ⟨hv, -⟩
      · rw [hb]; rfl
      · cases hv
    | false =>
      have hta : ta = .ok true := h
      rcases hs false rfl with hb | ⟨-, hb⟩
      · rw [hb]; rfl
      · rw [hb]; exact ht hta

theorem includesArray_mono {A A' : List (Option String)} (h : A ⊆ A') (v : Option String)
    (hv : includesArray A v = true) : includesArray A' v = true := by
  have hmem : v ∈ A := by simpa [includesArray] using hv
  simpa [includesArray] using h hmem

theorem stays_of_includes {A A' : List (Option String)} (h : A ⊆ A')
    (n : Except TypeError (Option String)) :
    Stays (n.bind fun name => .ok (includesArray A name))
      (n.bind fun name => .ok (includesArray A' name)) := by
  intro v hv
  cases n with
  | error e => simp [Except.bind] at hv
  | ok name =>
    simp only [Except.bind, Except.ok.injEq] at hv ⊢
    cases h' : includesArray A' name with
    | true => exact Or.inl rfl
    | false =>
      refine Or.inr ⟨?_, rfl⟩
      cases v with
      | false => rfl
      | true => rw [includesArray_mono h name hv] at h'; cases h'

theorem isDep_factor (node : Node) :
    ∃ n : Except TypeError (Option String), ∀ ctx : Context,
      isDep ctx node = n.bind fun name => .ok (includesArray ctx.moduleDependencies name) := by
  cases h1 : getPropType node with
  | error e => exact ⟨.error e, fun ctx => by simp [isDep, h1, Except.bind]⟩
  | ok type =>
    cases h2 : getPropName node with
    | error e => exact ⟨.error e, fun ctx => by simp [isDep, h1, h2, Except.bind]⟩
    | ok nodeName =>
      cases h3 : getPropObject node with
      | error e => exact ⟨.error e, fun ctx => by simp [isDep, h1, h2, h3, Except.bind]⟩
      | ok object =>
        exact ⟨if type == some "Identifier" && truthy nodeName then .ok nodeName
          else if type == some "MemberExpression" then (getObjectName object).map some
          else .ok none, fun ctx => by simp only [isDep, h1, h2, h3, Except.bind]⟩

theorem isDep_stays (D D' F F' : List (Option String)) (r : Option String) (hD : D ⊆ D')
    (node : Node) : Stays (isDep ⟨D, r, F⟩ node) (isDep ⟨D', r, F'⟩ node) := by
  obtain ⟨n, hn⟩ := isDep_factor node
  rw [hn, hn]
  exact stays_of_includes hD n

theorem isFrozen_stays (D D' F F' : List (Option String)) (r : Option String) (hF : F ⊆ F')
    (node : VariableDeclarator) : Stays (isFrozen ⟨D, r, F⟩ node) (isFrozen ⟨D', r, F'⟩ node) :=
  stays_of_includes hF _

mutual
theorem isConstObjectExpr_mono (D D' F F' : List (Option String)) (r : Option String)
    (hD : D ⊆ D') : ∀ e : Expr, isConstObjectExpr ⟨D, r, F⟩ e = .ok true →
      isConstObjectExpr ⟨D', r, F'⟩ e = .ok true
  | .ObjectExpression properties, h => by
    cases properties with
    | nil => simp [isConstObjectExpr] at h
    | cons p rest =>
      simp only [isConstObjectExpr, List.isEmpty_cons, Bool.false_eq_true, if_false] at h ⊢
      exact everyValueConst_mono D D' F F' r hD (p :: rest) h
  | .Identifier _, h => by simp [isConstObjectExpr] at h
  | .Literal _, h => by simp [isConstObjectExpr] at h
  | .UnaryExpression _ _, h => by simp [isConstObjectExpr] at h
  | .BinaryExpression _ _ _, h => by simp [isConstObjectExpr] at h
  | .FunctionExpression _ _, h => by simp [isConstObjectExpr] at h
  | .ArrayExpression _, h => by simp [isConstObjectExpr] at h
  | .MemberExpression _ _, h => by simp [isConstObjectExpr] at h
  | .CallExpression _ _, h => by simp [isConstObjectExpr] at h
  | .NewExpression _ _, h => by simp [isConstObjectExpr] at h
  | .Other _, h => by simp [isConstObjectExpr] at h
theorem everyValueConst_mono (D D' F F' : List (Option String)) (r : Option String)
    (hD : D ⊆ D') : ∀ properties : List PropertyNode,
      everyValueConst ⟨D, r, F⟩ properties = .ok true →
      everyValueConst ⟨D', r, F'⟩ properties = .ok true
  | [], _ => by simp [everyValueConst]
  | p :: rest, h => by
    rw [everyValueConst] at h ⊢
    cases hp : valueConst ⟨D, r, F⟩ p with
    | error e => simp [hp] at h
    | ok b =>
      cases b with
      | false => simp [hp] at h
      | true =>
        simp only [hp] at h
        rw [valueConst_mono D D' F F' r hD p hp]
        exact everyValueConst_mono D D' F F' r hD rest h
theorem valueConst_mono (D D' F F' : List (Option String)) (r : Option String)
    (hD : D ⊆ D') : ∀ p : PropertyNode, valueConst ⟨D, r, F⟩ p = .ok true →
      valueConst ⟨D', r, F'⟩ p = .ok true
  | .Property key value, h => by
    rw [valueConst] at h ⊢
    exact jsOr_mono (Stays.refl _) (jsOr_mono (Stays.refl _)
      (jsOr_mono (isDep_stays D D' F F' r hD _)
        (isConstObjectExpr_mono D D' F F' r hD value))) h
  | .SpreadElement argument, h => by
    simp [valueConst, PropertyNode.value, isLiteral, getPropType, Except.bind, jsOr] at h
end

theorem lastRules_mono (D D' F F' : List (Option String)) (r : Option String) (hD : D ⊆ D')
    (id : Pattern) (init : Expr) :
    jsOr (isConstObject ⟨D, r, F⟩ (.declarator (.mk id (some init))))
        (isBinaryExpression (.declarator (.mk id (some init)))) = .ok true →
    jsOr (isConstObject ⟨D', r, F'⟩ (.declarator (.mk id (some init))))
        (isBinaryExpression (.declarator (.mk id (some init)))) = .ok true := by
  rw [isConstObject_declarator, isConstObject_declarator]
  cases init with
  | ObjectExpression properties =>
    intro h
    have hb : isBinaryExpression
        (.declarator (.mk id (some (.ObjectExpression properties)))) = .ok false := rfl
    rw [hb] at h ⊢
    cases ha : isConstObjectExpr ⟨D, r, F⟩ (.ObjectExpression properties) with
    | error e => simp [ha, jsOr] at h
    | ok b =>
      cases b with
      | false => simp [ha, jsOr] at h
      | true =>
        rw [isConstObjectExpr_mono D D' F F' r hD _ ha]
        rfl
  | _ => exact fun h => h

theorem isAllowed_mono (D D' F F' : List (Option String)) (r : Option String) (hD : D ⊆ D')
    (hF : F ⊆ F') (node : VariableDeclarator) (h : isAllowed ⟨D, r, F⟩ node = .ok true) :
    isAllowed ⟨D', r, F'⟩ node = .ok true := by
  obtain ⟨id, init⟩ := node
  cases init with
  | none => simp [isAllowed, jsAnd, VariableDeclarator.init] at h
  | some init =>
    simp only [isAllowed, VariableDeclarator.init, Option.isSome_some, jsAnd] at h ⊢
    exact jsOr_mono (Stays.refl _) (jsOr_mono (Stays.refl _) (jsOr_mono (Stays.refl _)
      (jsOr_mono (Stays.refl _) (jsOr_mono (Stays.refl _)
      (jsOr_mono (isFrozen_stays D D' F F' r hF _) (jsOr_mono (Stays.refl _)
      (jsOr_mono (Stays.refl _) (jsOr_mono (isDep_stays D D' F F' r hD _)
      (jsOr_mono (Stays.refl _) (lastRules_mono D D' F F' r hD id init)))))))))) h

theorem filterAllowed_mono (D D' F F' : List (Option String)) (r : Option String) (hD : D ⊆ D')
    (hF : F ⊆ F') (vars kept kept' : List VariableDeclarator)
    (h : filterAllowed ⟨D, r, F⟩ vars = .ok kept) (h' : filterAllowed ⟨D', r, F'⟩ vars = .ok kept') :
    kept'.Sublist kept := by
  induction vars generalizing kept kept' with
  | nil =>
    simp only [filterAllowed, Except.ok.injEq] at h h'
    subst h h'
    exact List.Sublist.refl _
  | cons node rest ih =>
    simp only [filterAllowed] at h h'
    cases ha : isAllowed ⟨D, r, F⟩ node with
    | error e => simp [ha] at h
    | ok a =>
      cases hr : filterAllowed ⟨D, r, F⟩ rest with
      | error e => simp [ha, hr] at h
      | ok k =>
        cases ha' : isAllowed ⟨D', r, F'⟩ node with
        | error e => simp [ha'] at h'
        | ok a' =>
          cases hr' : filterAllowed ⟨D', r, F'⟩ rest with
          | error e => simp [ha', hr'] at h'
          | ok k' =>
            simp only [ha, hr, ha', hr', Except.ok.injEq] at h h'
            subst h h'
            have hsub := ih k k' hr hr'
            cases a with
            | true =>
              have := isAllowed_mono D D' F F' r hD hF node ha
              rw [ha'] at this
              cases this
              simpa using hsub
            | false =>
              cases a' with
              | true => simpa using hsub.cons node
              | false => simpa using hsub.cons₂ node

/-- C20: for a fixed returned identifier, when the dependency names `D` are
among `D'` and the frozen names `F` among `F'`, every declarator classified
safe under `(D, F)` is classified safe under `(D', F')`, an object literal
constant under `D` is constant under `D'`, nested values included, and what
`filterAllowed` keeps under `(D', F')` is a sub-list of what it keeps under
`(D, F)`: the larger context adds no diagnostic. -/
theorem c20_classification_monotone (D D' F F' : List (Option String)) (r : Option String)
    (hD : D ⊆ D') (hF : F ⊆ F') :
    (∀ node, isAllowed ⟨D, r, F⟩ node = .ok true → isAllowed ⟨D', r, F'⟩ node = .ok true) ∧
    (∀ value, isConstObject ⟨D, r, F⟩ (.expression value) = .ok true →
      isConstObject ⟨D', r, F'⟩ (.expression value) = .ok true) ∧
    (∀ vars kept kept', filterAllowed ⟨D, r, F⟩ vars = .ok kept →
      filterAllowed ⟨D', r, F'⟩ vars = .ok kept' →
      kept'.Sublist kept ∧ (kept'.map report).Sublist (kept.map report)) := by
  refine ⟨fun node h => isAllowed_mono D D' F F' r hD hF node h, fun value h => ?_,
    fun vars kept kept' h h' => ?_⟩
  · rw [isConstObject_expression] at h ⊢
    exact isConstObjectExpr_mono D D' F F' r hD value h
  · have hsub := filterAllowed_mono D D' F F' r hD hF vars kept kept' h h'
    exact ⟨hsub, hsub.map report⟩

/-- C20 (witness): with no dependency and no frozen name, `var cfg = {}` and
`var d = dep` are both kept; with the dependency `dep` and the frozen name
`cfg` neither is. -/
theorem c20_classification_monotone_witness :
    ([] : List (Option String)) ⊆ [some "dep"] ∧
    ([] : List (Option String)) ⊆ [some "cfg"] ∧
    filterAllowed ⟨[], none, []⟩
      [.mk (.Identifier "cfg") (some (.ObjectExpression [])),
       .mk (.Identifier "d") (some (.Identifier "dep"))] =
      .ok [.mk (.Identifier "cfg") (some (.ObjectExpression [])),
       .mk (.Identifier "d") (some (.Identifier "dep"))] ∧
    filterAllowed ⟨[some "dep"], none, [some "cfg"]⟩
      [.mk (.Identifier "cfg") (some (.ObjectExpression [])),
       .mk (.Identifier "d") (some (.Identifier "dep"))] = .ok [] ∧
    ([] : List VariableDeclarator).Sublist
      [.mk (.Identifier "cfg") (some (.ObjectExpression [])),
       .mk (.Identifier "d") (some (.Identifier "dep"))] :=
  ⟨by simp, by simp, rfl, rfl,
    ((c20_classification_monotone [] [some "dep"] [] [some "cfg"] none (by simp) (by simp)).2.2
      [.mk (.Identifier "cfg") (some (.ObjectExpression [])),
       .mk (.Identifier "d") (some (.Identifier "dep"))]
      [.mk (.Identifier "cfg") (some (.ObjectExpression [])),
       .mk (.Identifier "d") (some (.Identifier "dep"))] [] rfl rfl).1⟩

end NoModuleState
